import Mathlib

/-!
Shallow embedding of the `tature` regex engine (crate `regexpr`): the pattern
compiler (`src/compiler.rs`), the backtracking VM (`src/matcher.rs`), the
opcode tables (`src/opcodes.rs`), the syntax flags (`src/syntax.rs`) and the
public facade (`src/lib.rs`).  Bytes are modelled as `Nat` (values < 256),
signed 16/32-bit arithmetic as `Int` with explicit wrapping where the Rust
code wraps.  The unbounded `loop`s of the Rust code are modelled with an
explicit fuel parameter; running out of fuel is a distinguished result,
separate from every result the Rust code can produce.
-/

namespace Regexpr

/-- Error type, from `src/error.rs` (`RegexError`). -/
inductive RegexError where
  | CompileError (msg : String)
  | TooComplex
  | UnmatchedParenthesis
  | BadHexEscape
  | BadBackReference
  | BadSpecialChar
  | PrematureEnd
  | OutOfMemory
  | Timeout
  | ExecutionError
  | InvalidUtf8
deriving DecidableEq, Repr

/-- Syntax flag bit-set, from `src/syntax.rs` (`SyntaxFlags(u32)`). -/
structure SyntaxFlags where
  bits : Nat
deriving DecidableEq, Repr

def SyntaxFlags.NO_BK_PARENS : SyntaxFlags := ⟨1⟩

def SyntaxFlags.NO_BK_VBAR : SyntaxFlags := ⟨2⟩

def SyntaxFlags.BK_PLUS_QM : SyntaxFlags := ⟨4⟩

def SyntaxFlags.TIGHT_VBAR : SyntaxFlags := ⟨8⟩

def SyntaxFlags.NEWLINE_OR : SyntaxFlags := ⟨16⟩

def SyntaxFlags.CONTEXT_INDEP_OPS : SyntaxFlags := ⟨32⟩

def SyntaxFlags.ANSI_HEX : SyntaxFlags := ⟨64⟩

def SyntaxFlags.NO_GNU_EXTENSIONS : SyntaxFlags := ⟨128⟩

def SyntaxFlags.CASE_INSENSITIVE : SyntaxFlags := ⟨256⟩

def SyntaxFlags.empty : SyntaxFlags := ⟨0⟩

def SyntaxFlags.contains (s flag : SyntaxFlags) : Bool :=
  s.bits &&& flag.bits ≠ 0

/-- `SyntaxFlags::default()` is EMACS style: no flags set. -/
def SyntaxFlags.default : SyntaxFlags := SyntaxFlags.empty

def SyntaxFlags.AWK : SyntaxFlags :=
  ⟨SyntaxFlags.NO_BK_PARENS.bits ||| SyntaxFlags.NO_BK_VBAR.bits |||
    SyntaxFlags.CONTEXT_INDEP_OPS.bits⟩

def SyntaxFlags.EGREP : SyntaxFlags :=
  ⟨SyntaxFlags.AWK.bits ||| SyntaxFlags.NEWLINE_OR.bits⟩

def SyntaxFlags.GREP : SyntaxFlags :=
  ⟨SyntaxFlags.BK_PLUS_QM.bits ||| SyntaxFlags.NEWLINE_OR.bits⟩

def SyntaxFlags.EMACS : SyntaxFlags := SyntaxFlags.empty

def SyntaxFlags.MOO : SyntaxFlags := SyntaxFlags.CONTEXT_INDEP_OPS

def SyntaxFlags.needs_backslash_parens (s : SyntaxFlags) : Bool :=
  !(s.contains SyntaxFlags.NO_BK_PARENS)

def SyntaxFlags.needs_backslash_vbar (s : SyntaxFlags) : Bool :=
  !(s.contains SyntaxFlags.NO_BK_VBAR)

def SyntaxFlags.needs_backslash_plus_qm (s : SyntaxFlags) : Bool :=
  s.contains SyntaxFlags.BK_PLUS_QM

def SyntaxFlags.tight_vbar (s : SyntaxFlags) : Bool :=
  s.contains SyntaxFlags.TIGHT_VBAR

def SyntaxFlags.newline_or (s : SyntaxFlags) : Bool :=
  s.contains SyntaxFlags.NEWLINE_OR

def SyntaxFlags.context_indep_ops (s : SyntaxFlags) : Bool :=
  s.contains SyntaxFlags.CONTEXT_INDEP_OPS

def SyntaxFlags.ansi_sequences (s : SyntaxFlags) : Bool :=
  s.contains SyntaxFlags.ANSI_HEX

def SyntaxFlags.no_gnu_extensions (s : SyntaxFlags) : Bool :=
  s.contains SyntaxFlags.NO_GNU_EXTENSIONS

def SyntaxFlags.case_insensitive (s : SyntaxFlags) : Bool :=
  s.contains SyntaxFlags.CASE_INSENSITIVE

/-- `RE_NREGS` from `src/lib.rs`: maximum number of capture registers. -/
def RE_NREGS : Nat := 100

/-- VM opcodes, from `src/opcodes.rs` (`CompiledOp`). -/
inductive CompiledOp where
  | End
  | Bol
  | Eol
  | Set
  | Exact
  | AnyChar
  | StartMemory
  | EndMemory
  | MatchMemory
  | Jump
  | StarJump
  | FailureJump
  | UpdateFailureJump
  | DummyFailureJump
  | BegBuf
  | EndBuf
  | WordBeg
  | WordEnd
  | WordBound
  | NotWordBound
  | SyntaxSpec
  | NotSyntaxSpec
deriving DecidableEq, Repr

def CompiledOp.to_byte : CompiledOp → Nat
  | .End => 0
  | .Bol => 1
  | .Eol => 2
  | .Set => 3
  | .Exact => 4
  | .AnyChar => 5
  | .StartMemory => 6
  | .EndMemory => 7
  | .MatchMemory => 8
  | .Jump => 9
  | .StarJump => 10
  | .FailureJump => 11
  | .UpdateFailureJump => 12
  | .DummyFailureJump => 13
  | .BegBuf => 14
  | .EndBuf => 15
  | .WordBeg => 16
  | .WordEnd => 17
  | .WordBound => 18
  | .NotWordBound => 19
  | .SyntaxSpec => 20
  | .NotSyntaxSpec => 21

def CompiledOp.from_byte : Nat → Option CompiledOp
  | 0 => some .End
  | 1 => some .Bol
  | 2 => some .Eol
  | 3 => some .Set
  | 4 => some .Exact
  | 5 => some .AnyChar
  | 6 => some .StartMemory
  | 7 => some .EndMemory
  | 8 => some .MatchMemory
  | 9 => some .Jump
  | 10 => some .StarJump
  | 11 => some .FailureJump
  | 12 => some .UpdateFailureJump
  | 13 => some .DummyFailureJump
  | 14 => some .BegBuf
  | 15 => some .EndBuf
  | 16 => some .WordBeg
  | 17 => some .WordEnd
  | 18 => some .WordBound
  | 19 => some .NotWordBound
  | 20 => some .SyntaxSpec
  | 21 => some .NotSyntaxSpec
  | _ => none

/-- Parse operators, from `src/opcodes.rs` (`SyntaxOp`). -/
inductive SyntaxOp where
  | End
  | Normal
  | AnyChar
  | Quote
  | Bol
  | Eol
  | Optional
  | Star
  | Plus
  | Or
  | OpenPar
  | ClosePar
  | Memory
  | ExtendedMemory
  | OpenSet
  | BegBuf
  | EndBuf
  | WordChar
  | NotWordChar
  | WordBeg
  | WordEnd
  | WordBound
  | NotWordBound
deriving DecidableEq, Repr

/-- Discriminant of `SyntaxOp` (`op as usize`), used to index the precedence
table. -/
def SyntaxOp.toNat : SyntaxOp → Nat
  | .End => 0
  | .Normal => 1
  | .AnyChar => 2
  | .Quote => 3
  | .Bol => 4
  | .Eol => 5
  | .Optional => 6
  | .Star => 7
  | .Plus => 8
  | .Or => 9
  | .OpenPar => 10
  | .ClosePar => 11
  | .Memory => 12
  | .ExtendedMemory => 13
  | .OpenSet => 14
  | .BegBuf => 15
  | .EndBuf => 16
  | .WordChar => 17
  | .NotWordChar => 18
  | .WordBeg => 19
  | .WordEnd => 20
  | .WordBound => 21
  | .NotWordBound => 22

/-- UTF-8 encoding of a scalar value, as produced by `char::encode_utf8`
(used by `Compiler::store_char`). -/
def utf8Encode (c : Char) : List Nat :=
  let v := c.toNat
  if v < 0x80 then [v]
  else if v < 0x800 then [0xC0 + v / 64, 0x80 + v % 64]
  else if v < 0x10000 then
    [0xE0 + v / 4096, 0x80 + (v / 64) % 64, 0x80 + v % 64]
  else
    [0xF0 + v / 262144, 0x80 + (v / 4096) % 64, 0x80 + (v / 64) % 64,
      0x80 + v % 64]

/-- Decode the first scalar value from a UTF-8 byte sequence: the model of
`std::str::from_utf8(bytes).unwrap().chars().next().unwrap()` in the matcher.
Returns `none` where the Rust code would panic. -/
def utf8DecodeFirst : List Nat → Option Char
  | [] => none
  | b0 :: rest =>
    if b0 < 0x80 then
      some (Char.ofNat b0)
    else if b0 < 0xC2 then none
    else if b0 < 0xE0 then
      match rest with
      | b1 :: _ =>
        if 0x80 ≤ b1 ∧ b1 < 0xC0 then
          some (Char.ofNat ((b0 - 0xC0) * 64 + (b1 - 0x80)))
        else none
      | _ => none
    else if b0 < 0xF0 then
      match rest with
      | b1 :: b2 :: _ =>
        if 0x80 ≤ b1 ∧ b1 < 0xC0 ∧ 0x80 ≤ b2 ∧ b2 < 0xC0 then
          let v := (b0 - 0xE0) * 4096 + (b1 - 0x80) * 64 + (b2 - 0x80)
          if 0xD800 ≤ v ∧ v < 0xE000 then none
          else some (Char.ofNat v)
        else none
      | _ => none
    else if b0 < 0xF5 then
      match rest with
      | b1 :: b2 :: b3 :: _ =>
        if 0x80 ≤ b1 ∧ b1 < 0xC0 ∧ 0x80 ≤ b2 ∧ b2 < 0xC0 ∧ 0x80 ≤ b3 ∧
            b3 < 0xC0 then
          let v := (b0 - 0xF0) * 262144 + (b1 - 0x80) * 4096 +
            (b2 - 0x80) * 64 + (b3 - 0x80)
          if 0xD800 ≤ v ∧ v < 0xE000 then none
          else if v < 0x110000 then some (Char.ofNat v)
          else none
        else none
      | _ => none
    else none

/-- `is_word_char` from `src/matcher.rs`: ASCII alphanumeric or underscore. -/
def is_word_char (ch : Char) : Bool :=
  ch.isAlphanum || ch == '_'

/-! ## Compiler (`src/compiler.rs`) -/

/-- `MAX_NESTING` from `src/compiler.rs`. -/
def MAX_NESTING : Nat := 100

/-- `NUM_LEVELS` from `src/compiler.rs`. -/
def NUM_LEVELS : Nat := 5

/-- A compiled pattern, from `src/lib.rs` (`Regex`).  The translation map is
modelled as an association list; the source never populates it. -/
structure Regex where
  buffer : List Nat
  translate : Option (List (Char × Char))
  syn : SyntaxFlags
deriving DecidableEq, Repr

/-- The contents of the `plain_ops` table built by
`Compiler::initialize_tables`, as a function of the syntax flags.  The table
is built once per compile and never mutated, so a lookup in it is exactly
this function. -/
def plain_ops (syn : SyntaxFlags) (ch : Char) : Option SyntaxOp :=
  if ch = '\\' then some .Quote
  else if ch = '(' then
    if syn.needs_backslash_parens then none else some .OpenPar
  else if ch = ')' then
    if syn.needs_backslash_parens then none else some .ClosePar
  else if ch = '|' then
    if syn.needs_backslash_vbar then none else some .Or
  else if ch = '*' then some .Star
  else if ch = '+' then
    if syn.needs_backslash_plus_qm then none else some .Plus
  else if ch = '?' then
    if syn.needs_backslash_plus_qm then none else some .Optional
  else if ch = '\n' then
    if syn.newline_or then some .Or else none
  else if ch = '[' then some .OpenSet
  else if ch = '^' then some .Bol
  else if ch = '$' then some .Eol
  else if ch = '.' then some .AnyChar
  else none

/-- The contents of the `quoted_ops` table built by
`Compiler::initialize_tables`, as a function of the syntax flags. -/
def quoted_ops (syn : SyntaxFlags) (ch : Char) : Option SyntaxOp :=
  if '0' ≤ ch ∧ ch ≤ '9' then some .Memory
  else if ch = '(' then
    if syn.needs_backslash_parens then some .OpenPar else none
  else if ch = ')' then
    if syn.needs_backslash_parens then some .ClosePar else none
  else if ch = '|' then
    if syn.needs_backslash_vbar then some .Or else none
  else if ch = '+' then
    if syn.needs_backslash_plus_qm then some .Plus else none
  else if ch = '?' then
    if syn.needs_backslash_plus_qm then some .Optional else none
  else if ch = 'w' then
    if syn.no_gnu_extensions then none else some .WordChar
  else if ch = 'W' then
    if syn.no_gnu_extensions then none else some .NotWordChar
  else if ch = '<' then
    if syn.no_gnu_extensions then none else some .WordBeg
  else if ch = '>' then
    if syn.no_gnu_extensions then none else some .WordEnd
  else if ch = 'b' then
    if syn.no_gnu_extensions then none else some .WordBound
  else if ch = 'B' then
    if syn.no_gnu_extensions then none else some .NotWordBound
  else if ch = '`' then
    if syn.no_gnu_extensions then none else some .BegBuf
  else if ch = '\'' then
    if syn.no_gnu_extensions then none else some .EndBuf
  else if ch = 'v' then
    if syn.ansi_sequences then some .ExtendedMemory else none
  else none

/-- The 256-entry precedence table of `Compiler::initialize_tables`, read at
`op as usize`, as a function of the operator. -/
def precedences (syn : SyntaxFlags) (op : SyntaxOp) : Nat :=
  match op with
  | .Or => if syn.tight_vbar then 3 else 2
  | .Bol => if syn.tight_vbar then 2 else 3
  | .Eol => if syn.tight_vbar then 2 else 3
  | .ClosePar => 1
  | .End => 0
  | _ => 4

/-- Compiler state, from `src/compiler.rs` (`struct Compiler`).  The
`plain_ops`/`quoted_ops`/`precedences` tables are functions of `syn` above.
Fixed-size arrays are lists of the corresponding length. -/
structure Compiler where
  pattern : List Char
  pos : Nat
  buffer : List Nat
  syn : SyntaxFlags
  translate : Option (List (Char × Char))
  starts : List Nat
  starts_base : Nat
  future_jumps : List Nat
  num_jumps : Nat
  current_level : Nat
  next_register : Nat
  paren_depth : Nat
  num_open_registers : Nat
  open_registers : List Nat
  beginning_context : Bool
deriving Repr

/-- `Compiler::new`. -/
def Compiler.new (pattern : String) (syn : SyntaxFlags) : Compiler where
  pattern := pattern.data
  pos := 0
  buffer := []
  syn := syn
  translate := none
  starts := List.replicate (NUM_LEVELS * MAX_NESTING) 0
  starts_base := 0
  future_jumps := List.replicate MAX_NESTING 0
  num_jumps := 0
  current_level := 0
  next_register := 1
  paren_depth := 0
  num_open_registers := 0
  open_registers := List.replicate RE_NREGS 0
  beginning_context := true

/-- `Compiler::next_char`. -/
def Compiler.next_char (st : Compiler) : Except RegexError (Char × Compiler) :=
  if st.pos ≥ st.pattern.length then .error .PrematureEnd
  else .ok (st.pattern.getD st.pos ' ', { st with pos := st.pos + 1 })

/-- `Compiler::store`. -/
def Compiler.store (st : Compiler) (byte : Nat) : Compiler :=
  { st with buffer := st.buffer ++ [byte] }

/-- `Compiler::store_opcode`. -/
def Compiler.store_opcode (st : Compiler) (opcode : CompiledOp) : Compiler :=
  st.store opcode.to_byte

/-- `Compiler::store_opcode_and_arg`. -/
def Compiler.store_opcode_and_arg (st : Compiler) (opcode : CompiledOp)
    (arg : Nat) : Compiler :=
  (st.store_opcode opcode).store arg

/-- `Compiler::store_char`: UTF-8 length prefix then the UTF-8 bytes. -/
def Compiler.store_char (st : Compiler) (ch : Char) : Compiler :=
  let bytes := utf8Encode ch
  let st1 := st.store bytes.length
  { st1 with buffer := st1.buffer ++ bytes }

/-- `Compiler::store_opcode_and_char`. -/
def Compiler.store_opcode_and_char (st : Compiler) (opcode : CompiledOp)
    (ch : Char) : Compiler :=
  (st.store_opcode opcode).store_char ch

/-- `Compiler::current_level_start`. -/
def Compiler.current_level_start (st : Compiler) : Nat :=
  st.starts.getD (st.starts_base + st.current_level) 0

/-- `Compiler::set_level_start`. -/
def Compiler.set_level_start (st : Compiler) : Compiler :=
  { st with
    starts := st.starts.set (st.starts_base + st.current_level)
      st.buffer.length }

/-- `Compiler::push_level_starts`. -/
def Compiler.push_level_starts (st : Compiler) :
    Except RegexError Compiler :=
  if st.starts_base < (MAX_NESTING - 1) * NUM_LEVELS then
    .ok { st with starts_base := st.starts_base + NUM_LEVELS }
  else .error .TooComplex

/-- `Compiler::pop_level_starts`. -/
def Compiler.pop_level_starts (st : Compiler) : Compiler :=
  { st with starts_base := st.starts_base - NUM_LEVELS }

/-- `Compiler::put_addr`: store a 16-bit little-endian displacement
`addr - offset - 2` at `offset`.  `& 0xff` and the arithmetic shift of the
Rust code are Euclidean remainder and division by 256. -/
def Compiler.put_addr (st : Compiler) (offset addr : Nat) : Compiler :=
  let disp : Int := (addr : Int) - (offset : Int) - 2
  { st with
    buffer := (st.buffer.set offset (disp % 256).toNat).set (offset + 1)
      ((disp.ediv 256 % 256).toNat) }

/-- `Compiler::insert_jump`: insert opcode plus 16-bit displacement
`addr - pos - 3` at `pos`, shifting the queued future jumps at or after
`pos` by 3. -/
def Compiler.insert_jump (st : Compiler) (pos : Nat) (opcode : CompiledOp)
    (addr : Nat) : Compiler :=
  let disp : Int := (addr : Int) - (pos : Int) - 3
  { st with
    buffer := st.buffer.take pos ++
      [opcode.to_byte, (disp % 256).toNat, (disp.ediv 256 % 256).toNat] ++
      st.buffer.drop pos
    future_jumps := st.future_jumps.mapIdx fun i v =>
      if i < st.num_jumps ∧ pos ≤ v then v + 3 else v }

/-- `hex_char_to_decimal` from `src/compiler.rs`. -/
def hex_char_to_decimal (ch : Char) : Except RegexError Nat :=
  if '0' ≤ ch ∧ ch ≤ '9' then .ok (ch.toNat - 48)
  else if 'a' ≤ ch ∧ ch ≤ 'f' then .ok (ch.toNat - 97 + 10)
  else if 'A' ≤ ch ∧ ch ≤ 'F' then .ok (ch.toNat - 65 + 10)
  else .error .BadHexEscape

/-- `Compiler::get_hex`. -/
def Compiler.get_hex (st : Compiler) : Except RegexError (Char × Compiler) := do
  let (ch1, st1) ← st.next_char
  let val1 ← hex_char_to_decimal ch1
  let (ch2, st2) ← st1.next_char
  let val2 ← hex_char_to_decimal ch2
  let byte_val := val1 * 16 + val2
  if byte_val ≤ 127 then .ok (Char.ofNat byte_val, st2)
  else .error .BadHexEscape

/-- `Compiler::ansi_translate`. -/
def Compiler.ansi_translate (st : Compiler) (ch : Char) :
    Except RegexError (Char × Compiler) :=
  if ch = 'a' ∨ ch = 'A' then .ok ('\x07', st)
  else if ch = 'b' ∨ ch = 'B' then .ok ('\x08', st)
  else if ch = 'f' ∨ ch = 'F' then .ok ('\x0C', st)
  else if ch = 'n' ∨ ch = 'N' then .ok ('\n', st)
  else if ch = 'r' ∨ ch = 'R' then .ok ('\x0D', st)
  else if ch = 't' ∨ ch = 'T' then .ok ('\t', st)
  else if ch = 'v' ∨ ch = 'V' then .ok ('\x0B', st)
  else if ch = 'x' ∨ ch = 'X' then st.get_hex
  else
    match st.translate with
    | some t => .ok ((t.lookup ch).getD ch, st)
    | none => .ok (ch, st)

/-- The raising half of `Compiler::handle_precedence`:
`while current_level < level { current_level += 1; set_level_start() }`.
Each iteration moves `current_level` one step closer to `level`, so `level`
fuel always suffices and the fuel never runs out when the caller passes
`level`. -/
def Compiler.raise_levels (fuel : Nat) (st : Compiler) (level : Nat) :
    Compiler :=
  match fuel with
  | 0 => st
  | fuel + 1 =>
    if st.current_level < level then
      Compiler.raise_levels fuel
        (Compiler.set_level_start
          { st with current_level := st.current_level + 1 })
        level
    else st

/-- The patching half of `Compiler::handle_precedence`: pop pending
alternation jumps at or after the current level start and patch them to the
buffer end.  Each iteration decrements `num_jumps`, so `num_jumps` fuel
always suffices. -/
def Compiler.patch_jumps (fuel : Nat) (st : Compiler) : Compiler :=
  match fuel with
  | 0 => st
  | fuel + 1 =>
    if 0 < st.num_jumps ∧
        st.current_level_start ≤ st.future_jumps.getD (st.num_jumps - 1) 0 then
      Compiler.patch_jumps fuel
        { st.put_addr (st.future_jumps.getD (st.num_jumps - 1) 0)
            st.buffer.length with
          num_jumps := st.num_jumps - 1 }
    else st

/-- `Compiler::handle_precedence`.  The source returns `Result` but never an
error; the model returns the state directly. -/
def Compiler.handle_precedence (st : Compiler) (level : Nat) : Compiler :=
  if st.current_level < level then Compiler.raise_levels level st level
  else if level < st.current_level then
    Compiler.patch_jumps st.num_jumps { st with current_level := level }
  else st

/-- `Compiler::is_eol_context`. -/
def Compiler.is_eol_context (st : Compiler) : Bool :=
  st.pos ≥ st.pattern.length || st.pattern.getD st.pos ' ' = '|' ||
    st.pattern.getD st.pos ' ' = ')'

/-- One iteration of the scanning loop of
`Compiler::compile_character_set`.  The loop state mirrors the local
variables `ranges`, `prev_char`, `in_range`, `first_char`, `found_closing`.
Fuel bounds the iteration count; each iteration consumes at least one
pattern character, so `pattern.length + 1` fuel can never run out (running
out is reported as a `CompileError` the source cannot produce). -/
def Compiler.charset_loop (fuel : Nat) (st : Compiler)
    (ranges : List (Char × Char)) (prev_char : Option Char)
    (in_range first_char : Bool) :
    Except RegexError (Compiler × List (Char × Char) × Option Char × Bool × Bool) :=
  match fuel with
  | 0 => .error (.CompileError "model: charset fuel exhausted")
  | fuel + 1 =>
    if st.pos < st.pattern.length then
      let ch := st.pattern.getD st.pos ' '
      let st := { st with pos := st.pos + 1 }
      if ch = ']' ∧ first_char = false then
        .ok (st, ranges, prev_char, in_range, true)
      else
        let esc : Except RegexError (Char × Compiler) :=
          if ch = '\\' ∧ st.syn.ansi_sequences = true ∧
              st.pos < st.pattern.length then
            let escaped := st.pattern.getD st.pos ' '
            Compiler.ansi_translate { st with pos := st.pos + 1 } escaped
          else .ok (ch, st)
        match esc with
        | .error e => .error e
        | .ok (actual0, st) =>
          let actual_char :=
            match st.translate with
            | some t => (t.lookup actual0).getD actual0
            | none => actual0
          if in_range then
            let ranges :=
              match prev_char with
              | some start_char => ranges ++ [(start_char, actual_char)]
              | none => ranges
            charset_loop fuel st ranges none false false
          else if ch = '-' ∧ prev_char.isSome = true ∧
              st.pos < st.pattern.length ∧
              st.pattern.getD st.pos ' ' ≠ ']' then
            charset_loop fuel st ranges prev_char true false
          else
            charset_loop fuel st (ranges ++ [(actual_char, actual_char)])
              (some actual_char) false false
    else .ok (st, ranges, prev_char, in_range, false)

/-- `Compiler::compile_character_set`. -/
def Compiler.compile_character_set (st : Compiler) :
    Except RegexError Compiler :=
  let st := st.set_level_start
  let st := st.store_opcode .Set
  let complement := st.pos < st.pattern.length ∧
    st.pattern.getD st.pos ' ' = '^'
  let st := if complement then { st with pos := st.pos + 1 } else st
  let st := st.store (if complement then 1 else 0)
  let num_ranges_pos := st.buffer.length
  let st := st.store 0
  match Compiler.charset_loop (st.pattern.length + 1) st [] none false true with
  | .error e => .error e
  | .ok (st, ranges, _, in_range, found_closing) =>
    if found_closing = false then .error .PrematureEnd
    else
      let ranges := if in_range then ranges ++ [('-', '-')] else ranges
      let st := { st with buffer := st.buffer.set num_ranges_pos ranges.length }
      let st := ranges.foldl (fun st r => (st.store_char r.1).store_char r.2) st
      .ok st

/-- `Compiler::process_operation`. -/
def Compiler.process_operation (st : Compiler) (op : SyntaxOp) (ch : Char) :
    Except RegexError Compiler :=
  match op with
  | .End => .ok st
  | .Normal => .ok (st.set_level_start.store_opcode_and_char .Exact ch)
  | .AnyChar => .ok (st.set_level_start.store_opcode .AnyChar)
  | .Bol =>
    if st.beginning_context = false ∧ st.syn.context_indep_ops = false then
      .ok (st.set_level_start.store_opcode_and_char .Exact '^')
    else if st.beginning_context = false then .error .BadSpecialChar
    else .ok (st.set_level_start.store_opcode .Bol)
  | .Eol =>
    if st.is_eol_context = false ∧ st.syn.context_indep_ops = false then
      .ok (st.set_level_start.store_opcode_and_char .Exact '$')
    else if st.is_eol_context = false then .error .BadSpecialChar
    else .ok (st.set_level_start.store_opcode .Eol)
  | .Optional =>
    if st.beginning_context then
      if st.syn.context_indep_ops then .error .BadSpecialChar
      else .ok (st.set_level_start.store_opcode_and_char .Exact '?')
    else if st.current_level_start = st.buffer.length then .ok st
    else
      .ok (st.insert_jump st.current_level_start .FailureJump
        (st.buffer.length + 3))
  | .Star =>
    if st.beginning_context then
      if st.syn.context_indep_ops then .error .BadSpecialChar
      else .ok (st.set_level_start.store_opcode_and_char .Exact '*')
    else if st.current_level_start = st.buffer.length then .ok st
    else
      let st := st.insert_jump st.current_level_start .FailureJump
        (st.buffer.length + 6)
      .ok (st.insert_jump st.buffer.length .StarJump st.current_level_start)
  | .Plus =>
    if st.beginning_context then
      if st.syn.context_indep_ops then .error .BadSpecialChar
      else .ok (st.set_level_start.store_opcode_and_char .Exact '+')
    else if st.current_level_start = st.buffer.length then .ok st
    else
      let st := st.insert_jump st.current_level_start .FailureJump
        (st.buffer.length + 6)
      let st := st.insert_jump st.buffer.length .StarJump
        st.current_level_start
      .ok (st.insert_jump st.current_level_start .DummyFailureJump
        (st.current_level_start + 6))
  | .Or =>
    let st := st.insert_jump st.current_level_start .FailureJump
      (st.buffer.length + 6)
    if st.num_jumps ≥ MAX_NESTING then .error .TooComplex
    else
      let st := st.store_opcode .Jump
      let st := { st with
        future_jumps := st.future_jumps.set st.num_jumps st.buffer.length
        num_jumps := st.num_jumps + 1 }
      let st := (st.store 0).store 0
      .ok st.set_level_start
  | .OpenPar =>
    let st := st.set_level_start
    let st :=
      if st.next_register < RE_NREGS then
        let st := st.store_opcode_and_arg .StartMemory st.next_register
        { st with
          open_registers := st.open_registers.set st.num_open_registers
            st.next_register
          num_open_registers := st.num_open_registers + 1
          next_register := st.next_register + 1 }
      else st
    let st := { st with paren_depth := st.paren_depth + 1 }
    match st.push_level_starts with
    | .error e => .error e
    | .ok st => .ok (Compiler.set_level_start { st with current_level := 0 })
  | .ClosePar =>
    if 0 < st.paren_depth then
      let st := st.pop_level_starts
      let st := { st with
        current_level := precedences st.syn .OpenPar
        paren_depth := st.paren_depth - 1 }
      if st.paren_depth < st.num_open_registers then
        let st := { st with
          num_open_registers := st.num_open_registers - 1 }
        .ok (st.store_opcode_and_arg .EndMemory
          (st.open_registers.getD st.num_open_registers 0))
      else .ok st
    else .ok (st.set_level_start.store_opcode_and_char .Exact ')')
  | .Memory =>
    if ch = '0' then .error .BadBackReference
    else
      let reg_num := ch.toNat - 48
      .ok (st.set_level_start.store_opcode_and_arg .MatchMemory reg_num)
  | .OpenSet => st.compile_character_set
  | .WordBound => .ok (st.set_level_start.store_opcode .WordBound)
  | .NotWordBound => .ok (st.set_level_start.store_opcode .NotWordBound)
  | .WordChar => .ok (st.set_level_start.store_opcode_and_arg .SyntaxSpec 1)
  | .NotWordChar =>
    .ok (st.set_level_start.store_opcode_and_arg .NotSyntaxSpec 1)
  | .WordBeg => .ok (st.set_level_start.store_opcode .WordBeg)
  | .WordEnd => .ok (st.set_level_start.store_opcode .WordEnd)
  | .BegBuf => .ok (st.set_level_start.store_opcode .BegBuf)
  | .EndBuf => .ok (st.set_level_start.store_opcode .EndBuf)
  | .ExtendedMemory => do
    let (ch1, st) ← st.next_char
    let (ch2, st) ← st.next_char
    if ¬ ('0' ≤ ch1 ∧ ch1 ≤ '9') ∨ ¬ ('0' ≤ ch2 ∧ ch2 ≤ '9') then
      .error .BadBackReference
    else
      let reg_num := (ch1.toNat - 48) * 10 + (ch2.toNat - 48)
      if reg_num = 0 ∨ reg_num ≥ RE_NREGS then .error .BadBackReference
      else .ok (st.set_level_start.store_opcode_and_arg .MatchMemory reg_num)
  | .Quote => .error (.CompileError "Unimplemented operation")

/-- The body of the main parsing loop of `Compiler::compile`: scan one
operator (resolving quoting and ANSI escapes), returning the operator, its
character, and the updated state. -/
def Compiler.scan_op (st : Compiler) :
    Except RegexError (SyntaxOp × Char × Compiler) :=
  if st.pos ≥ st.pattern.length then .ok (.End, '\x00', st)
  else
    match st.next_char with
    | .error e => .error e
    | .ok (ch0, st) =>
      let ch :=
        match st.translate with
        | some t => (t.lookup ch0).getD ch0
        | none => ch0
      let op := (plain_ops st.syn ch).getD .Normal
      if op = .Quote then
        match st.next_char with
        | .error e => .error e
        | .ok (ch, st) =>
          let op := (quoted_ops st.syn ch).getD .Normal
          if op = .Normal ∧ st.syn.ansi_sequences = true then
            match st.ansi_translate ch with
            | .error e => .error e
            | .ok (ch, st) => .ok (op, ch, st)
          else .ok (op, ch, st)
      else .ok (op, ch, st)

/-- The main parsing loop of `Compiler::compile`
(`while op != SyntaxOp::End { ... }`).  Each iteration scans one operator,
handles precedence, processes the operator and updates
`beginning_context`; the iteration that scans `End` still processes it and
then the loop exits.  Every iteration but the last consumes at least one
pattern character, so `pattern.length + 2` fuel can never run out. -/
def Compiler.compile_loop (fuel : Nat) (st : Compiler) :
    Except RegexError Compiler :=
  match fuel with
  | 0 => .error (.CompileError "model: compile fuel exhausted")
  | fuel + 1 =>
    match st.scan_op with
    | .error e => .error e
    | .ok (op, ch, st) =>
      let level := precedences st.syn op
      let st := st.handle_precedence level
      match st.process_operation op ch with
      | .error e => .error e
      | .ok st =>
        let st := { st with
          beginning_context := op = .OpenPar ∨ op = .Or }
        if op = .End then .ok st else Compiler.compile_loop fuel st

/-- `Compiler::compile` and the `compile` entry point of
`src/compiler.rs`: run the main loop from `Compiler::new`'s state (after the
initial `set_level_start`), then append the `End` opcode. -/
def compile (pattern : String) (syn : SyntaxFlags) :
    Except RegexError Regex :=
  let st := (Compiler.new pattern syn).set_level_start
  match Compiler.compile_loop (pattern.data.length + 2) st with
  | .error e => .error e
  | .ok st =>
    let st := st.store_opcode .End
    .ok { buffer := st.buffer, translate := st.translate, syn := st.syn }

/-! ## Matcher VM (`src/matcher.rs`) -/

/-- Execution limits, from `src/lib.rs` (`ExecLimits`). -/
structure ExecLimits where
  max_ticks : Option Nat
  max_failures : Nat
deriving DecidableEq, Repr

/-- `ExecLimits::default()`. -/
def ExecLimits.default : ExecLimits where
  max_ticks := none
  max_failures := 100000

/-- Capture result, from `src/lib.rs` (`Captures`): a fixed array of
`RE_NREGS` optional (start, end) pairs, modelled as a list of that length. -/
structure Captures where
  groups : List (Option Nat × Option Nat)
deriving DecidableEq, Repr

/-- `Captures::get`. -/
def Captures.get (c : Captures) (index : Nat) : Option (Nat × Nat) :=
  if index < RE_NREGS then
    match c.groups.getD index (none, none) with
    | (some start, some «end») => some (start, «end»)
    | _ => none
  else none

/-- `Captures::len`: the index of the first group whose start and end are
both `None`, or `RE_NREGS` when there is no such group. -/
def Captures.len (c : Captures) : Nat :=
  c.groups.findIdx fun g => g.1.isNone && g.2.isNone

/-- `Captures::is_empty`. -/
def Captures.is_empty (c : Captures) : Bool :=
  (c.groups.getD 0 (none, none)).1.isNone

/-- A failure point, from `src/matcher.rs` (`FailurePoint`). -/
structure FailurePoint where
  text_pos : Nat
  code_pos : Nat
deriving DecidableEq, Repr

/-- VM state, from `src/matcher.rs` (`MatchState`).  The failure stack is a
list whose head is the most recently pushed entry; the register arrays are
lists of length `RE_NREGS`. -/
structure MatchState where
  regex : Regex
  text_chars : List Char
  text_pos : Nat
  code_pos : Nat
  failure_stack : List FailurePoint
  reg_start_pos : List (Option Nat)
  reg_end_pos : List (Option Nat)
  reg_maybe_pos : List (Option Nat)
  limits : ExecLimits
  ticks : Nat
deriving DecidableEq, Repr

/-- `MatchState::new`. -/
def MatchState.new (regex : Regex) (text : String) (limits : ExecLimits) :
    MatchState where
  regex := regex
  text_chars := text.data
  text_pos := 0
  code_pos := 0
  failure_stack := []
  reg_start_pos := List.replicate RE_NREGS none
  reg_end_pos := List.replicate RE_NREGS none
  reg_maybe_pos := List.replicate RE_NREGS none
  limits := limits
  ticks := 0

/-- `MatchState::check_limits`: bump the tick counter, then fail with
`Timeout` once it reaches `max_ticks`, or with `ExecutionError` once the
failure stack reaches `max_failures`. -/
def MatchState.check_limits (s : MatchState) : Except RegexError MatchState :=
  let s := { s with ticks := s.ticks + 1 }
  match s.limits.max_ticks with
  | some mt =>
    if s.ticks ≥ mt then .error .Timeout
    else if s.failure_stack.length ≥ s.limits.max_failures then
      .error .ExecutionError
    else .ok s
  | none =>
    if s.failure_stack.length ≥ s.limits.max_failures then
      .error .ExecutionError
    else .ok s

/-- `MatchState::current_char` (applies the translation map). -/
def MatchState.current_char (s : MatchState) : Except RegexError Char :=
  if s.text_pos ≥ s.text_chars.length then .error .ExecutionError
  else
    let ch := s.text_chars.getD s.text_pos ' '
    match s.regex.translate with
    | some t => .ok ((t.lookup ch).getD ch)
    | none => .ok ch

/-- `MatchState::next_char`: `current_char` then advance. -/
def MatchState.next_char (s : MatchState) :
    Except RegexError (Char × MatchState) :=
  match s.current_char with
  | .error e => .error e
  | .ok ch => .ok (ch, { s with text_pos := s.text_pos + 1 })

/-- `MatchState::at_end`. -/
def MatchState.at_end (s : MatchState) : Bool :=
  s.text_pos ≥ s.text_chars.length

/-- `MatchState::push_failure`. -/
def MatchState.push_failure (s : MatchState) (code_pos : Nat) :
    Except RegexError MatchState :=
  if s.failure_stack.length ≥ s.limits.max_failures then
    .error .ExecutionError
  else
    .ok { s with
      failure_stack := ⟨s.text_pos, code_pos⟩ :: s.failure_stack }

/-- 16-bit little-endian signed displacement from two bytes, as read by
`MatchState::read_displacement` (`low | (high << 8)` in `i16`). -/
def i16_of_bytes (low high : Nat) : Int :=
  let v := low % 256 + 256 * (high % 256)
  if v < 32768 then (v : Int) else (v : Int) - 65536

/-- `(self.code_pos as i32 + disp as i32) as usize`: a negative sum wraps
around 2^64 exactly as the Rust cast does. -/
def wrap_target (code_pos : Nat) (disp : Int) : Nat :=
  (((code_pos : Int) + disp) % (2 ^ 64)).toNat

instance {ε α : Type} [DecidableEq ε] [DecidableEq α] :
    DecidableEq (Except ε α) := fun x y =>
  match x, y with
  | .ok a, .ok b =>
    if h : a = b then isTrue (by rw [h])
    else isFalse (by intro hc; cases hc; exact h rfl)
  | .error a, .error b =>
    if h : a = b then isTrue (by rw [h])
    else isFalse (by intro hc; cases hc; exact h rfl)
  | .ok _, .error _ => isFalse (by intro hc; cases hc)
  | .error _, .ok _ => isFalse (by intro hc; cases hc)

/-- Outcome of a fuelled computation: `fuelOut` and `panicked` are artifacts
of the model (the second marks a place where the Rust code would panic);
`res` carries the value the Rust code returns. -/
inductive MRes (α : Type) where
  | fuelOut
  | panicked
  | res (val : α)
deriving DecidableEq, Repr

/-- Outcome of one iteration of the `MatchState::execute` loop. -/
inductive StepOut where
  | done (r : Except RegexError (Option Nat)) (s : MatchState)
  | cont (s : MatchState)
  | panicked
deriving Repr

/-- `MatchState::backtrack` folded with its use sites: pop a failure point
and continue there, or end the loop with `ExecutionError`. -/
def MatchState.backtrack_step (s : MatchState) : StepOut :=
  match s.failure_stack with
  | [] => .done (.error .ExecutionError) s
  | fp :: rest =>
    .cont { s with
      text_pos := fp.text_pos
      code_pos := fp.code_pos
      failure_stack := rest }

/-- The range-scanning loop of the `Set` arm of `MatchState::execute`:
decode `n` ranges starting at `pos`, recording whether any contains `ch`,
and return the position after the last range.  `none` marks a decoding
panic of the Rust code. -/
def set_scan (buf : List Nat) (ch : Char) :
    Nat → Nat → Bool → Option (Bool × Nat)
  | pos, 0, matched => some (matched, pos)
  | pos, n + 1, matched =>
    match buf.get? pos with
    | none => none
    | some start_len =>
      if buf.length < pos + 1 + start_len then none
      else
        match utf8DecodeFirst ((buf.drop (pos + 1)).take start_len) with
        | none => none
        | some start_char =>
          let pos := pos + 1 + start_len
          match buf.get? pos with
          | none => none
          | some end_len =>
            if buf.length < pos + 1 + end_len then none
            else
              match utf8DecodeFirst ((buf.drop (pos + 1)).take end_len) with
              | none => none
              | some end_char =>
                set_scan buf ch (pos + 1 + end_len) n
                  (matched || (start_char ≤ ch ∧ ch ≤ end_char))

/-- The dispatch part of one iteration of the main loop of
`MatchState::execute` (everything after `check_limits`): bounds-check the
code cursor, fetch and dispatch one opcode. -/
def MatchState.dispatch (s : MatchState) : StepOut :=
  if s.code_pos ≥ s.regex.buffer.length then
      .done (.error .ExecutionError) s
  else
      match CompiledOp.from_byte (s.regex.buffer.getD s.code_pos 0) with
      | none => .done (.error .ExecutionError) s
      | some opcode =>
        let s := { s with code_pos := s.code_pos + 1 }
        match opcode with
        | .End => .done (.ok (some s.text_pos)) s
        | .Bol =>
          if s.text_pos = 0 then .cont s
          else
            match s.text_chars.get? (s.text_pos - 1) with
            | none => .panicked
            | some prev => if prev = '\n' then .cont s else s.backtrack_step
        | .Eol =>
          if s.at_end then .cont s
          else
            match s.current_char with
            | .error e => .done (.error e) s
            | .ok ch => if ch = '\n' then .cont s else s.backtrack_step
        | .Set =>
          match s.next_char with
          | .error _ => s.backtrack_step
          | .ok (ch, s) =>
            match s.regex.buffer.get? s.code_pos with
            | none => .panicked
            | some complement_byte =>
              let complement := complement_byte ≠ 0
              let s := { s with code_pos := s.code_pos + 1 }
              match s.regex.buffer.get? s.code_pos with
              | none => .panicked
              | some num_ranges =>
                let s := { s with code_pos := s.code_pos + 1 }
                match set_scan s.regex.buffer ch s.code_pos num_ranges false with
                | none => .panicked
                | some (matched, pos) =>
                  let matched := if complement then !matched else matched
                  if matched then .cont { s with code_pos := pos }
                  else s.backtrack_step
        | .Exact =>
          match s.regex.buffer.get? s.code_pos with
          | none => .panicked
          | some char_len =>
            let s := { s with code_pos := s.code_pos + 1 }
            if s.regex.buffer.length < s.code_pos + char_len then .panicked
            else
              match utf8DecodeFirst
                  ((s.regex.buffer.drop s.code_pos).take char_len) with
              | none => .panicked
              | some expected =>
                let s := { s with code_pos := s.code_pos + char_len }
                match s.next_char with
                | .error _ => s.backtrack_step
                | .ok (ch, s) =>
                  if ch = expected then .cont s else s.backtrack_step
        | .AnyChar =>
          match s.next_char with
          | .error _ => s.backtrack_step
          | .ok (ch, s) => if ch ≠ '\n' then .cont s else s.backtrack_step
        | .StartMemory =>
          match s.regex.buffer.get? s.code_pos with
          | none => .panicked
          | some reg =>
            let s := { s with code_pos := s.code_pos + 1 }
            if reg < RE_NREGS then
              .cont { s with
                reg_maybe_pos := s.reg_maybe_pos.set reg (some s.text_pos) }
            else .cont s
        | .EndMemory =>
          match s.regex.buffer.get? s.code_pos with
          | none => .panicked
          | some reg =>
            let s := { s with code_pos := s.code_pos + 1 }
            if reg < RE_NREGS then
              .cont { s with
                reg_start_pos :=
                  s.reg_start_pos.set reg (s.reg_maybe_pos.getD reg none)
                reg_end_pos := s.reg_end_pos.set reg (some s.text_pos) }
            else .cont s
        | .MatchMemory =>
          match s.regex.buffer.get? s.code_pos with
          | none => .panicked
          | some reg =>
            let s := { s with code_pos := s.code_pos + 1 }
            if reg ≥ RE_NREGS ∨ (s.reg_end_pos.getD reg none).isNone then
              s.backtrack_step
            else
              s.backtrack_step
        | .Jump =>
          match s.regex.buffer.get? s.code_pos,
              s.regex.buffer.get? (s.code_pos + 1) with
          | some low, some high =>
            let s := { s with code_pos := s.code_pos + 2 }
            .cont { s with
              code_pos := wrap_target s.code_pos (i16_of_bytes low high) }
          | _, _ => .panicked
        | .DummyFailureJump =>
          match s.regex.buffer.get? s.code_pos,
              s.regex.buffer.get? (s.code_pos + 1) with
          | some _, some _ =>
            let s := { s with code_pos := s.code_pos + 2 }
            if s.code_pos < s.regex.buffer.length ∧
                CompiledOp.from_byte (s.regex.buffer.getD s.code_pos 0) =
                  some .FailureJump then
              .cont { s with code_pos := s.code_pos + 3 }
            else .done (.error .ExecutionError) s
          | _, _ => .panicked
        | .FailureJump =>
          if s.failure_stack.length ≥ s.limits.max_failures then
            .done (.error .ExecutionError) s
          else
            match s.regex.buffer.get? s.code_pos,
                s.regex.buffer.get? (s.code_pos + 1) with
            | some low, some high =>
              let s := { s with code_pos := s.code_pos + 2 }
              let target := wrap_target s.code_pos (i16_of_bytes low high)
              match s.push_failure target with
              | .error e => .done (.error e) s
              | .ok s => .cont s
            | _, _ => .panicked
        | .StarJump =>
          match s.regex.buffer.get? s.code_pos,
              s.regex.buffer.get? (s.code_pos + 1) with
          | some low, some high =>
            let s := { s with code_pos := s.code_pos + 2 }
            let target := wrap_target s.code_pos (i16_of_bytes low high)
            let s :=
              match s.failure_stack with
              | [] => s
              | fp :: rest =>
                { s with
                  failure_stack := { fp with text_pos := s.text_pos } :: rest }
            .cont { s with code_pos := target }
          | _, _ => .panicked
        | .UpdateFailureJump =>
          let s :=
            match s.failure_stack with
            | [] => s
            | fp :: rest =>
              { s with
                failure_stack := { fp with text_pos := s.text_pos } :: rest }
          match s.regex.buffer.get? s.code_pos,
              s.regex.buffer.get? (s.code_pos + 1) with
          | some low, some high =>
            let s := { s with code_pos := s.code_pos + 2 }
            .cont { s with
              code_pos := wrap_target s.code_pos (i16_of_bytes low high) }
          | _, _ => .panicked
        | .WordBeg =>
          if s.at_end then s.backtrack_step
          else
            match s.current_char with
            | .error e => .done (.error e) s
            | .ok next_ch =>
              if is_word_char next_ch = false then s.backtrack_step
              else if s.text_pos = 0 then .cont s
              else
                match s.text_chars.get? (s.text_pos - 1) with
                | none => .panicked
                | some prev =>
                  if is_word_char prev then s.backtrack_step else .cont s
        | .WordEnd =>
          if s.text_pos = 0 then s.backtrack_step
          else
            match s.text_chars.get? (s.text_pos - 1) with
            | none => .panicked
            | some prev =>
              if is_word_char prev = false then s.backtrack_step
              else if s.at_end then .cont s
              else
                match s.current_char with
                | .error e => .done (.error e) s
                | .ok next_ch =>
                  if is_word_char next_ch then s.backtrack_step else .cont s
        | .WordBound =>
          let at_start := s.text_pos = 0
          let is_at_end := s.at_end
          if at_start ∨ is_at_end then
            if at_start ∧ ¬ is_at_end then
              match s.current_char with
              | .error e => .done (.error e) s
              | .ok next_ch =>
                if is_word_char next_ch = false then s.backtrack_step
                else .cont s
            else if is_at_end ∧ ¬ at_start then
              let prev_is_word :=
                if 0 < s.text_pos then
                  is_word_char (s.text_chars.getD (s.text_pos - 1) ' ')
                else false
              if prev_is_word = false then s.backtrack_step else .cont s
            else .cont s
          else
            let prev_is_word :=
              if 0 < s.text_pos then
                is_word_char (s.text_chars.getD (s.text_pos - 1) ' ')
              else false
            match s.current_char with
            | .error e => .done (.error e) s
            | .ok next_ch =>
              if prev_is_word = is_word_char next_ch then s.backtrack_step
              else .cont s
        | .NotWordBound =>
          let at_start := s.text_pos = 0
          let is_at_end := s.at_end
          if at_start ∨ is_at_end then s.backtrack_step
          else
            let prev_is_word :=
              if 0 < s.text_pos then
                is_word_char (s.text_chars.getD (s.text_pos - 1) ' ')
              else false
            match s.current_char with
            | .error e => .done (.error e) s
            | .ok next_ch =>
              if prev_is_word ≠ is_word_char next_ch then s.backtrack_step
              else .cont s
        | .SyntaxSpec =>
          match s.regex.buffer.get? s.code_pos with
          | none => .panicked
          | some syntax_code =>
            let s := { s with code_pos := s.code_pos + 1 }
            match s.next_char with
            | .error _ => s.backtrack_step
            | .ok (ch, s) =>
              if syntax_code = 1 ∧ is_word_char ch then .cont s
              else s.backtrack_step
        | .NotSyntaxSpec =>
          match s.regex.buffer.get? s.code_pos with
          | none => .panicked
          | some syntax_code =>
            let s := { s with code_pos := s.code_pos + 1 }
            match s.next_char with
            | .error _ => s.backtrack_step
            | .ok (ch, s) =>
              if syntax_code = 1 ∧ is_word_char ch = false then .cont s
              else s.backtrack_step
        | .BegBuf => .done (.error .ExecutionError) s
        | .EndBuf => .done (.error .ExecutionError) s

/-- One iteration of the main loop of `MatchState::execute`: check limits,
then dispatch one opcode. -/
def MatchState.step (s0 : MatchState) : StepOut :=
  match s0.check_limits with
  | .error e => .done (.error e) s0
  | .ok s => s.dispatch

/-- The main loop of `MatchState::execute`, with fuel bounding the number
of iterations. -/
def MatchState.run : Nat → MatchState →
    MRes (Except RegexError (Option Nat) × MatchState)
  | 0, _ => .fuelOut
  | fuel + 1, s =>
    match s.step with
    | .panicked => .panicked
    | .done r s => .res (r, s)
    | .cont s => MatchState.run fuel s

/-- `MatchState::execute`: position the cursors and run the loop. -/
def MatchState.execute (s : MatchState) (start_pos : Nat) (fuel : Nat) :
    MRes (Except RegexError (Option Nat) × MatchState) :=
  MatchState.run fuel { s with text_pos := start_pos, code_pos := 0 }

/-- `MatchState::build_captures`. -/
def MatchState.build_captures (s : MatchState) (match_start match_end : Nat) :
    Captures where
  groups := (List.range RE_NREGS).map fun i =>
    if i = 0 then (some match_start, some match_end)
    else
      match s.reg_start_pos.getD i none, s.reg_end_pos.getD i none with
      | some start, some «end» => (some start, some «end»)
      | _, _ => (none, none)

/-! ## Search driver and public facade (`src/matcher.rs`, `src/lib.rs`) -/

/-- The forward loop of `search`: `for pos in start..=end`, breaking (and
falling through to `Ok(-1)`) when `pos > text_len`, returning `Ok(pos)` at
the first position where the VM reports a match, and treating every VM
error as a non-match. -/
def search_fwd (regex : Regex) (text : String) (limits : ExecLimits)
    (text_len : Nat) (fuel : Nat) :
    List Nat → MRes (Except RegexError Int)
  | [] => .res (.ok (-1))
  | pos :: rest =>
    if pos > text_len then .res (.ok (-1))
    else
      match (MatchState.new regex text limits).execute pos fuel with
      | .fuelOut => .fuelOut
      | .panicked => .panicked
      | .res (.ok (some _), _) => .res (.ok (pos : Int))
      | .res _ => search_fwd regex text limits text_len fuel rest

/-- The backward loop of `search`: `for pos in (end..=start).rev()`,
skipping positions beyond `text_len`. -/
def search_bwd (regex : Regex) (text : String) (limits : ExecLimits)
    (text_len : Nat) (fuel : Nat) :
    List Nat → MRes (Except RegexError Int)
  | [] => .res (.ok (-1))
  | pos :: rest =>
    if pos > text_len then search_bwd regex text limits text_len fuel rest
    else
      match (MatchState.new regex text limits).execute pos fuel with
      | .fuelOut => .fuelOut
      | .panicked => .panicked
      | .res (.ok (some _), _) => .res (.ok (pos : Int))
      | .res _ => search_bwd regex text limits text_len fuel rest

/-- `search` from `src/matcher.rs`. -/
def search (regex : Regex) (text : String) (start : Nat) (range : Int)
    (limits : ExecLimits) (fuel : Nat) : MRes (Except RegexError Int) :=
  let text_len := text.data.length
  if 0 ≤ range then
    let e := min (start + range.toNat) text_len
    let positions :=
      if start ≤ e then List.range' start (e - start + 1) else []
    search_fwd regex text limits text_len fuel positions
  else
    let e := start - (-range).toNat
    let positions := (if e ≤ start then List.range' e (start - e + 1) else []).reverse
    search_bwd regex text limits text_len fuel positions

/-- `match_at` from `src/matcher.rs`: run the VM at one position and build
captures on success; every other outcome is `Ok(None)`. -/
def match_at (regex : Regex) (text : String) (pos : Nat)
    (limits : ExecLimits) (fuel : Nat) :
    MRes (Except RegexError (Option Captures)) :=
  match (MatchState.new regex text limits).execute pos fuel with
  | .fuelOut => .fuelOut
  | .panicked => .panicked
  | .res (.ok (some end_pos), s) =>
    .res (.ok (some (s.build_captures pos end_pos)))
  | .res _ => .res (.ok none)

/-- `Regex::captures_with_limits` from `src/lib.rs`: search the whole text,
then rebuild captures at the winning position; errors are discarded with
`.ok()`. -/
def Regex.captures_with_limits (regex : Regex) (text : String)
    (limits : ExecLimits) (fuel : Nat) : MRes (Option Captures) :=
  match search regex text 0 (text.data.length : Int) limits fuel with
  | .fuelOut => .fuelOut
  | .panicked => .panicked
  | .res r =>
    match r.toOption with
    | none => .res none
    | some pos =>
      if 0 ≤ pos then
        match match_at regex text pos.toNat limits fuel with
        | .fuelOut => .fuelOut
        | .panicked => .panicked
        | .res r2 => .res (r2.toOption.getD none)
      else .res none

/-- `Regex::find_with_limits`. -/
def Regex.find_with_limits (regex : Regex) (text : String)
    (limits : ExecLimits) (fuel : Nat) : MRes (Option (Nat × Nat)) :=
  match regex.captures_with_limits text limits fuel with
  | .fuelOut => .fuelOut
  | .panicked => .panicked
  | .res (some captures) => .res (captures.get 0)
  | .res none => .res none

/-- `Regex::is_match_with_limits`. -/
def Regex.is_match_with_limits (regex : Regex) (text : String)
    (limits : ExecLimits) (fuel : Nat) : MRes Bool :=
  match regex.find_with_limits text limits fuel with
  | .fuelOut => .fuelOut
  | .panicked => .panicked
  | .res r => .res r.isSome

/-- `Regex::find` (default limits). -/
def Regex.find (regex : Regex) (text : String) (fuel : Nat) :
    MRes (Option (Nat × Nat)) :=
  regex.find_with_limits text ExecLimits.default fuel

/-- `Regex::is_match` (default limits). -/
def Regex.is_match (regex : Regex) (text : String) (fuel : Nat) :
    MRes Bool :=
  regex.is_match_with_limits text ExecLimits.default fuel

/-- `Regex::captures` (default limits). -/
def Regex.captures (regex : Regex) (text : String) (fuel : Nat) :
    MRes (Option Captures) :=
  regex.captures_with_limits text ExecLimits.default fuel

/-- `Regex::new`: compile with default (EMACS) syntax. -/
def Regex.new (pattern : String) : Except RegexError Regex :=
  compile pattern SyntaxFlags.default

/-- `Regex::with_syntax`. -/
def Regex.with_syntax (pattern : String) (syn : SyntaxFlags) :
    Except RegexError Regex :=
  compile pattern syn

/-! ## Definitions used by the claim statements -/

/-- The error-or-match-end component of a VM execution, dropping the final
state. -/
def execute_result (regex : Regex) (text : String) (pos : Nat)
    (limits : ExecLimits) (fuel : Nat) : MRes (Except RegexError (Option Nat)) :=
  match (MatchState.new regex text limits).execute pos fuel with
  | .fuelOut => .fuelOut
  | .panicked => .panicked
  | .res (r, _) => .res r

/-- The program compiled from the pattern `\b` under default (EMACS)
syntax: a single `WordBound` opcode followed by `End`. -/
def wb_regex : Regex where
  buffer := [CompiledOp.WordBound.to_byte, CompiledOp.End.to_byte]
  translate := none
  syn := SyntaxFlags.EMACS

/-- The program compiled from the pattern `\B` under default (EMACS)
syntax: a single `NotWordBound` opcode followed by `End`. -/
def nwb_regex : Regex where
  buffer := [CompiledOp.NotWordBound.to_byte, CompiledOp.End.to_byte]
  translate := none
  syn := SyntaxFlags.EMACS

/-- The word-boundary rule exactly as the claim states it: at position 0
a boundary iff a next character exists and is a word character; at end of
text iff the previous character is a word character; elsewhere iff exactly
one of the two neighbours is a word character. -/
def word_bound_claimed (cs : List Char) (p : Nat) : Bool :=
  if p = 0 then !cs.isEmpty && is_word_char (cs.getD 0 ' ')
  else if p = cs.length then is_word_char (cs.getD (p - 1) ' ')
  else is_word_char (cs.getD (p - 1) ' ') != is_word_char (cs.getD p ' ')

/-- The word-boundary rule as the code implements it: on an empty text,
position 0 (which is both the start and the end of the text) is a
boundary; everywhere else the claimed rule applies. -/
def word_bound_amended (cs : List Char) (p : Nat) : Bool :=
  if cs.isEmpty && p = 0 then true else word_bound_claimed cs p

/-- The `NotWordBound` rule of the claim: never a match at position 0 or
at the end of the text; elsewhere a match iff the two neighbours agree on
word-ness. -/
def not_word_bound_spec (cs : List Char) (p : Nat) : Bool :=
  if p = 0 || decide (cs.length ≤ p) then false
  else is_word_char (cs.getD (p - 1) ' ') == is_word_char (cs.getD p ' ')

/-- A two-instruction VM run (one zero-width assertion, then `End`) on a
character list, at list level: exactly `execute_result` after
`MatchState.new`, with the text already split into code points. -/
def zero_width_probe (re : Regex) (cs : List Char) (p : Nat) :
    MRes (Except RegexError (Option Nat)) :=
  match MatchState.run 2
    { regex := re, text_chars := cs, text_pos := p, code_pos := 0,
      failure_stack := [],
      reg_start_pos := List.replicate RE_NREGS none,
      reg_end_pos := List.replicate RE_NREGS none,
      reg_maybe_pos := List.replicate RE_NREGS none,
      limits := ExecLimits.default, ticks := 0 } with
  | .fuelOut => .fuelOut
  | .panicked => .panicked
  | .res (r, _) => .res r

/-- The six bytes `Exact, 4, <utf-8 of U+1D11E>` that the compiler emits for
one `'𝄞'` character (a 4-byte code point). -/
def exG : List Nat := [4, 4, 240, 157, 132, 158]

/-- The bytes emitted for `k` consecutive `'𝄞'` characters. -/
def exBytesRep : Nat → List Nat
  | 0 => []
  | k + 1 => exBytesRep k ++ exG

/-- The pattern `a|𝄞𝄞...𝄞` (`n` copies): its right alternative occupies
`6 * n` bytes, so for large `n` the displacement of the alternation's
`Jump` exceeds 16 bits. -/
def bigPat (n : Nat) : String := "a|" ++ String.mk (List.replicate n '𝄞')

/-- The first nine buffer bytes after compiling `a|` in AWK mode:
`OnFailureJump +6; Exact 1 'a'; Jump 0 0` (the `Jump` displacement at
offsets 7-8 is patched later). -/
def jumpPrefix : List Nat := [11, 6, 0, 4, 1, 97, 9, 0, 0]

/-- The compiler state on `bigPat n` after scanning `a|` and the first `k`
copies of `'𝄞'` (for `1 ≤ k ≤ n`). -/
def stateK (n k : Nat) : Compiler where
  pattern := 'a' :: '|' :: List.replicate n '𝄞'
  pos := 2 + k
  buffer := jumpPrefix ++ exBytesRep k
  syn := SyntaxFlags.AWK
  translate := none
  starts := (((List.replicate 500 0).set 2 9).set 3 9).set 4 (9 + 6 * (k - 1))
  starts_base := 0
  future_jumps := (List.replicate 100 0).set 0 7
  num_jumps := 1
  current_level := 4
  next_register := 1
  paren_depth := 0
  num_open_registers := 0
  open_registers := List.replicate 100 0
  beginning_context := false

/-- `stateK` with the scan position advanced past the next character. -/
def stateKmid (n k : Nat) : Compiler :=
  { stateK n k with pos := 2 + k + 1 }

/-- The initial compiler state of `compile (bigPat n)`. -/
def state0 (n : Nat) : Compiler :=
  (Compiler.new (bigPat n) SyntaxFlags.AWK).set_level_start

/-- The compiler state after the `a` iteration on `bigPat n`. -/
def state1 (n : Nat) : Compiler where
  pattern := 'a' :: '|' :: List.replicate n '𝄞'
  pos := 1
  buffer := [4, 1, 97]
  syn := SyntaxFlags.AWK
  translate := none
  starts := List.replicate 500 0
  starts_base := 0
  future_jumps := List.replicate 100 0
  num_jumps := 0
  current_level := 4
  next_register := 1
  paren_depth := 0
  num_open_registers := 0
  open_registers := List.replicate 100 0
  beginning_context := false

/-- The compiler state after the `|` iteration on `bigPat n`: the
`OnFailureJump` has been inserted and the pending `Jump` at offset 7 is
queued in `future_jumps`. -/
def state2 (n : Nat) : Compiler where
  pattern := 'a' :: '|' :: List.replicate n '𝄞'
  pos := 2
  buffer := jumpPrefix
  syn := SyntaxFlags.AWK
  translate := none
  starts := (List.replicate 500 0).set 2 9
  starts_base := 0
  future_jumps := (List.replicate 100 0).set 0 7
  num_jumps := 1
  current_level := 2
  next_register := 1
  paren_depth := 0
  num_open_registers := 0
  open_registers := List.replicate 100 0
  beginning_context := true

def state1mid (n : Nat) : Compiler :=
  { state1 n with pos := 2 }

def state2pre (n : Nat) : Compiler :=
  { state2 n with beginning_context := false }

def state1b (n : Nat) : Compiler :=
  { state1mid n with current_level := 2 }

def state1c (n : Nat) : Compiler :=
  { state1b n with
    buffer := [11, 6, 0, 4, 1, 97]
    future_jumps := List.replicate 100 0 }

def state2mid (n : Nat) : Compiler :=
  { state2 n with pos := 3 }

def state2b (n : Nat) : Compiler :=
  { state2mid n with
    current_level := 4
    starts := (((List.replicate 500 0).set 2 9).set 3 9).set 4 9 }

def stFinPre (n : Nat) : Compiler :=
  { stateK n n with current_level := 0 }

/-- The compiler state after the `End` iteration: `patch_jumps` has written
the 16-bit truncation `6 * n % 2^16` of the displacement `6 * n` into
offsets 7-8. -/
def stFin (n : Nat) : Compiler :=
  { stateK n n with
    current_level := 0
    num_jumps := 0
    buffer := ((jumpPrefix ++ exBytesRep n).set 7 (6 * n % 256)).set 8
      (6 * n / 256 % 256) }

/-- The compiled program of `bigPat n` in AWK mode, in closed form. -/
def truncRegex (n : Nat) : Regex where
  buffer := [11, 6, 0, 4, 1, 97, 9, 6 * n % 256, 6 * n / 256 % 256] ++
    exBytesRep n ++ [0]
  translate := none
  syn := SyntaxFlags.AWK

/-! ## Supporting lemmas -/

set_option maxHeartbeats 2000000 in
/-- Behaviour of the `WordBound` arm of the VM: a run of
`[WordBound, End]` at position `p` matches exactly when the amended
word-boundary rule holds (on an empty text position 0 is a boundary). -/
theorem word_bound_characterization (cs : List Char) (p : Nat)
    (hp : p ≤ cs.length) :
    (zero_width_probe wb_regex cs p = .res (.ok (some p)) ↔
      word_bound_amended cs p = true) := by
  unfold zero_width_probe MatchState.run MatchState.step
    MatchState.dispatch MatchState.check_limits
  simp only [wb_regex, ExecLimits.default, CompiledOp.to_byte,
    CompiledOp.from_byte, List.length_cons, List.length_nil, List.getD,
    MatchState.at_end, MatchState.current_char, MatchState.backtrack_step]
  norm_num
  by_cases h0 : p = 0
  · subst h0
    by_cases hlen : cs.length = 0
    · simp [hlen, word_bound_amended, List.isEmpty_iff,
        List.length_eq_zero.mp hlen, MatchState.run, MatchState.step,
        MatchState.check_limits, MatchState.dispatch, CompiledOp.from_byte]
    · have h1 : ¬ cs.length ≤ 0 := by omega
      have h2 : 0 < cs.length := by omega
      have hie : cs.isEmpty = false := by
        cases cs
        · simp at hlen
        · rfl
      simp [h1, h2, hlen, hie, word_bound_amended, word_bound_claimed]
      by_cases hw : is_word_char cs[0] = false
      · simp [hw]
      · simp only [Bool.not_eq_false] at hw
        simp [hw, MatchState.run, MatchState.step, MatchState.check_limits,
          MatchState.dispatch, CompiledOp.from_byte]
  · have hne : cs ≠ [] := by
      intro hh; subst hh; simp [Nat.le_zero] at hp; exact h0 hp
    have hie : cs.isEmpty = false := by
      cases cs
      · exact absurd rfl hne
      · rfl
    have hpos : 0 < p := by omega
    have hb1 : p - 1 < cs.length := by omega
    by_cases hend : cs.length ≤ p
    · have hpe : p = cs.length := by omega
      simp [h0, hend, hpos, hie, word_bound_amended, word_bound_claimed, hpe]
      by_cases hw : is_word_char cs[cs.length - 1] = false
      · simp [hw, hne, show cs.length - 1 < cs.length by omega]
      · simp only [Bool.not_eq_false] at hw
        simp [hw, hne, show cs.length - 1 < cs.length by omega,
          MatchState.run, MatchState.step, MatchState.check_limits,
          MatchState.dispatch, CompiledOp.from_byte]
    · have hb2 : p < cs.length := by omega
      simp [h0, hend, hpos, hie, hb1, hb2, word_bound_amended,
        word_bound_claimed, show p ≠ cs.length by omega]
      by_cases hw : is_word_char cs[p - 1] = is_word_char cs[p]
      · simp [hw]
      · simp [hw, MatchState.run, MatchState.step, MatchState.check_limits,
          MatchState.dispatch, CompiledOp.from_byte]

set_option maxHeartbeats 2000000 in
/-- Behaviour of the `NotWordBound` arm of the VM: a run of
`[NotWordBound, End]` at position `p` matches exactly when `p` is strictly
inside the text and the two neighbouring characters agree on word-ness. -/
theorem not_word_bound_characterization (cs : List Char) (p : Nat)
    (hp : p ≤ cs.length) :
    (zero_width_probe nwb_regex cs p = .res (.ok (some p)) ↔
      not_word_bound_spec cs p = true) := by
  unfold zero_width_probe MatchState.run MatchState.step
    MatchState.dispatch MatchState.check_limits
  simp only [nwb_regex, ExecLimits.default, CompiledOp.to_byte,
    CompiledOp.from_byte, List.length_cons, List.length_nil, List.getD,
    MatchState.at_end, MatchState.current_char, MatchState.backtrack_step]
  norm_num
  by_cases h0 : p = 0
  · subst h0
    simp [not_word_bound_spec]
  · by_cases hend : cs.length ≤ p
    · simp [h0, hend, not_word_bound_spec]
    · have hpos : 0 < p := by omega
      have hb1 : p - 1 < cs.length := by omega
      have hb2 : p < cs.length := by omega
      simp [h0, hend, hpos, hb1, hb2, not_word_bound_spec]
      by_cases hw : is_word_char cs[p - 1] = is_word_char cs[p]
      · simp [hw, MatchState.run, MatchState.step, MatchState.check_limits,
          MatchState.dispatch, CompiledOp.from_byte]
      · simp [hw]

/-- `List.findIdx` returns the index of the first element satisfying the
predicate: everything before it fails the predicate, and the element at the
returned index (when it is inside the list) satisfies it. -/
theorem findIdx_first_characterization {α : Type} (p : α → Bool)
    (l : List α) :
    l.findIdx p ≤ l.length ∧
    (∀ j x, j < l.findIdx p → l.get? j = some x → p x = false) ∧
    (∀ x, l.get? (l.findIdx p) = some x → p x = true) := by
  induction l with
  | nil => simp
  | cons a t ih =>
    rw [List.findIdx_cons]
    cases hpa : p a with
    | true =>
      refine ⟨by simp, ?_, ?_⟩
      · intro j x hj
        simp at hj
      · intro x hx
        simp at hx
        simpa [hx] using hpa
    | false =>
      simp only [cond_false]
      refine ⟨by simpa using ih.1, ?_, ?_⟩
      · intro j x hj hx
        cases j with
        | zero =>
          simp at hx
          simpa [hx] using hpa
        | succ n =>
          exact ih.2.1 n x (by omega) (by simpa using hx)
      · intro x hx
        exact ih.2.2 x (by simpa using hx)

/-- `MatchState::next_char` succeeds exactly when `current_char` does, and
only advances the text cursor. -/
theorem next_char_ok_iff (s : MatchState) (c : Char) (s' : MatchState) :
    s.next_char = .ok (c, s') ↔
      (s.current_char = .ok c ∧ s' = { s with text_pos := s.text_pos + 1 }) := by
  unfold MatchState.next_char
  cases hc : s.current_char <;> simp_all
  intro _
  exact eq_comm

/-- `MatchState::push_failure` succeeds exactly below the `max_failures`
bound, and only pushes one failure point. -/
theorem push_failure_ok_iff (s : MatchState) (cp : Nat) (s' : MatchState) :
    s.push_failure cp = .ok s' ↔
      (¬ s.limits.max_failures ≤ s.failure_stack.length ∧
        s' = { s with
          failure_stack := ⟨s.text_pos, cp⟩ :: s.failure_stack }) := by
  unfold MatchState.push_failure
  split <;> simp_all
  exact eq_comm

set_option maxHeartbeats 4000000 in
/-- No opcode arm of the VM touches the tick counter or the limits: when
dispatch continues the loop, both are unchanged. -/
theorem dispatch_cont (s s' : MatchState) (h : s.dispatch = .cont s') :
    s'.ticks = s.ticks ∧ s'.limits = s.limits := by
  unfold MatchState.dispatch MatchState.backtrack_step at h
  by_cases hge : s.code_pos ≥ s.regex.buffer.length
  · rw [if_pos hge] at h
    exact absurd h (by simp)
  · rw [if_neg hge] at h
    cases hop : CompiledOp.from_byte (s.regex.buffer.getD s.code_pos 0) with
    | none =>
      rw [hop] at h
      exact absurd h (by simp)
    | some opcode =>
      cases opcode <;> rw [hop] at h <;> simp only [] at h <;>
        (repeat' split at h) <;> (try simp at h) <;> (try subst h) <;>
        simp_all [next_char_ok_iff, push_failure_ok_iff]

/-- `MatchState::check_limits` increments the tick counter by exactly one,
and succeeds only while the new tick count is below `max_ticks`. -/
theorem check_limits_ok (s s' : MatchState)
    (h : s.check_limits = .ok s') :
    s' = { s with ticks := s.ticks + 1 } ∧
      (∀ k, s.limits.max_ticks = some k → s.ticks + 1 < k) := by
  unfold MatchState.check_limits at h
  simp only [] at h
  cases hmt : s.limits.max_ticks <;> rw [hmt] at h <;>
    (repeat' split at h) <;> simp_all
  try omega

/-- Every loop iteration that continues increments the tick counter by
exactly one, preserves the limits, and keeps the tick counter below
`max_ticks`. -/
theorem step_cont (s s' : MatchState) (h : s.step = .cont s') :
    s'.ticks = s.ticks + 1 ∧ s'.limits = s.limits ∧
      (∀ k, s.limits.max_ticks = some k → s.ticks + 1 < k) := by
  unfold MatchState.step at h
  cases hc : s.check_limits with
  | error e =>
    rw [hc] at h
    exact absurd h (by simp)
  | ok s1 =>
    rw [hc] at h
    obtain ⟨rfl, hlt⟩ := check_limits_ok s s1 hc
    obtain ⟨ht, hl⟩ := dispatch_cont _ s' h
    exact ⟨ht, hl, hlt⟩

/-- With `max_ticks = k`, the VM loop cannot consume more than
`k - ticks` iterations: fuel covering that many iterations never runs
out. -/
theorem run_bounded : ∀ (fuel : Nat) (s : MatchState) (k : Nat),
    s.limits.max_ticks = some k → k ≤ s.ticks + fuel → 1 ≤ fuel →
    MatchState.run fuel s ≠ .fuelOut := by
  intro fuel
  induction fuel with
  | zero => intro s k _ _ hf; omega
  | succ n ih =>
    intro s k hmt hk _
    rw [MatchState.run]
    cases hstep : s.step with
    | done r s2 => simp
    | panicked => simp
    | cont s2 =>
      simp only []
      obtain ⟨ht, hl, hlt⟩ := step_cont s s2 hstep
      have hk2 := hlt k hmt
      exact ih s2 k (by rw [hl]; exact hmt) (by omega) (by omega)

/-- Once the tick counter reaches the limit, the very next loop iteration
terminates with `Timeout` before dispatching an instruction. -/
theorem step_timeout (s : MatchState) (k : Nat)
    (hmt : s.limits.max_ticks = some k) (h : k ≤ s.ticks + 1) :
    s.step = .done (.error .Timeout) s := by
  unfold MatchState.step MatchState.check_limits
  simp [hmt, h]

theorem exBytesRep_length (k : Nat) : (exBytesRep k).length = 6 * k := by
  induction k with
  | zero => rfl
  | succ m ih => simp [exBytesRep, exG, ih]; omega

set_option maxRecDepth 4000 in
theorem stateK_scan (n k : Nat) (hk : k < n) :
    (stateK n k).scan_op = .ok (.Normal, '𝄞', stateKmid n k) := by
  unfold Compiler.scan_op Compiler.next_char
  have hlen : (stateK n k).pattern.length = 2 + n := by
    show ('a' :: '|' :: List.replicate n '𝄞').length = 2 + n
    simp
    omega
  have hpos : (stateK n k).pos = 2 + k := rfl
  rw [hlen, hpos]
  rw [if_neg (by omega)]
  rw [if_neg (by omega)]
  have hget : (stateK n k).pattern.getD (2 + k) ' ' = '𝄞' := by
    show (('a' :: '|' :: List.replicate n '𝄞').getD (2 + k) ' ') = '𝄞'
    simp [List.getD]
    rw [show 2 + k = k + 2 by omega]
    simp [List.getElem?_cons_succ, List.getElem?_replicate, hk]
  rw [hget]
  have hplain : plain_ops SyntaxFlags.AWK '𝄞' = none := by decide
  have htr : (stateK n k).translate = none := rfl
  simp [htr, hplain]
  rfl

theorem stateK_hp (n k : Nat) :
    (stateKmid n k).handle_precedence
      (precedences (stateKmid n k).syn .Normal) = stateKmid n k := rfl

set_option maxRecDepth 4000 in
theorem stateK_next (n k : Nat) (hk1 : 1 ≤ k) :
    (stateKmid n k).set_level_start.store_opcode_and_char .Exact '𝄞' =
      stateK n (k + 1) := by
  unfold Compiler.set_level_start Compiler.store_opcode_and_char
    Compiler.store_opcode Compiler.store_char Compiler.store
  unfold stateKmid stateK
  simp only [Compiler.mk.injEq]
  repeat' apply And.intro
  all_goals try trivial
  · rw [show exBytesRep (k + 1) = exBytesRep k ++ exG from rfl,
      show exG = [CompiledOp.Exact.to_byte] ++
        ([(utf8Encode '𝄞').length] ++ utf8Encode '𝄞') from by decide]
    simp [List.append_assoc]
  · rw [List.set_set]
    congr 1
    have hlb : (jumpPrefix ++ exBytesRep k).length = 9 + 6 * k := by
      simp [jumpPrefix, exBytesRep_length]
      omega
    rw [hlb]
    omega

set_option maxRecDepth 4000 in
theorem stateK_step (n k fuel : Nat) (hk1 : 1 ≤ k) (hk : k < n) :
    Compiler.compile_loop (fuel + 1) (stateK n k) =
      Compiler.compile_loop fuel (stateK n (k + 1)) := by
  rw [Compiler.compile_loop, stateK_scan n k hk]
  show (Compiler.compile_loop fuel _) = _
  rw [stateK_hp n k, stateK_next n k hk1]
  rfl

set_option maxRecDepth 8000 in
set_option maxHeartbeats 2000000 in
theorem state0_step1 (n fuel : Nat) :
    Compiler.compile_loop (fuel + 1) (state0 n) =
      Compiler.compile_loop fuel (state1 n) := rfl

set_option maxRecDepth 4000 in
theorem state1_scan (n : Nat) :
    (state1 n).scan_op = .ok (.Or, '|', state1mid n) := by
  unfold Compiler.scan_op Compiler.next_char
  have hlen : (state1 n).pattern.length = 2 + n := by
    show ('a' :: '|' :: List.replicate n '𝄞').length = 2 + n
    simp
    omega
  have hpos : (state1 n).pos = 1 := rfl
  rw [hlen, hpos]
  rw [if_neg (by omega)]
  rw [if_neg (by omega)]
  have hget : (state1 n).pattern.getD 1 ' ' = '|' := rfl
  rw [hget]
  have hplain : plain_ops SyntaxFlags.AWK '|' = some .Or := by decide
  have htr : (state1 n).translate = none := rfl
  have hsyn : (state1 n).syn = SyntaxFlags.AWK := rfl
  simp [htr, hsyn, hplain]
  rfl

theorem state1_hp (n : Nat) :
    (state1mid n).handle_precedence (precedences (state1mid n).syn .Or) =
      state1b n := by
  rw [show precedences (state1mid n).syn SyntaxOp.Or = 2 from by
    rw [show (state1mid n).syn = SyntaxFlags.AWK from rfl]; decide]
  rfl

set_option maxRecDepth 2000 in
theorem state1_ins (n : Nat) :
    (state1b n).insert_jump (state1b n).current_level_start .FailureJump
      ((state1b n).buffer.length + 6) = state1c n := by
  unfold Compiler.insert_jump
  simp only []
  rw [show (state1b n).current_level_start = 0 from rfl]
  rw [show (state1b n).buffer = [4, 1, 97] from rfl]
  rw [show (state1b n).num_jumps = 0 from rfl]
  rw [show (state1b n).future_jumps = List.replicate 100 0 from rfl]
  unfold state1c
  congr 1

set_option maxRecDepth 2000 in
theorem state1_proc (n : Nat) :
    (state1b n).process_operation .Or '|' = .ok (state2pre n) := by
  unfold Compiler.process_operation
  simp only []
  rw [state1_ins n]
  rw [if_neg (show ¬ ((state1c n).num_jumps ≥ MAX_NESTING) from by
    show ¬ ((0 : Nat) ≥ 100)
    omega)]
  rfl

set_option maxRecDepth 4000 in
theorem state1_step (n fuel : Nat) :
    Compiler.compile_loop (fuel + 1) (state1 n) =
      Compiler.compile_loop fuel (state2 n) := by
  rw [Compiler.compile_loop, state1_scan n]
  simp only []
  rw [state1_hp n, state1_proc n]
  simp only []
  rfl

set_option maxRecDepth 4000 in
theorem state2_scan (m : Nat) :
    (state2 (m + 1)).scan_op = .ok (.Normal, '𝄞', state2mid (m + 1)) := by
  unfold Compiler.scan_op Compiler.next_char
  have hlen : (state2 (m + 1)).pattern.length = 2 + (m + 1) := by
    show ('a' :: '|' :: List.replicate (m + 1) '𝄞').length = 2 + (m + 1)
    simp
    omega
  have hpos : (state2 (m + 1)).pos = 2 := rfl
  rw [hlen, hpos]
  rw [if_neg (by omega)]
  rw [if_neg (by omega)]
  have hget : (state2 (m + 1)).pattern.getD 2 ' ' = '𝄞' := rfl
  rw [hget]
  have hplain : plain_ops SyntaxFlags.AWK '𝄞' = none := by decide
  have htr : (state2 (m + 1)).translate = none := rfl
  have hsyn : (state2 (m + 1)).syn = SyntaxFlags.AWK := rfl
  simp [htr, hsyn, hplain]
  rfl

theorem state2_hp (n : Nat) :
    (state2mid n).handle_precedence
      (precedences (state2mid n).syn .Normal) = state2b n := rfl

set_option maxRecDepth 4000 in
theorem state2_next (n : Nat) :
    (state2b n).set_level_start.store_opcode_and_char .Exact '𝄞' =
      { stateK n 1 with beginning_context := true } := by
  unfold Compiler.set_level_start Compiler.store_opcode_and_char
    Compiler.store_opcode Compiler.store_char Compiler.store
  unfold state2b state2mid state2 stateK
  simp only [Compiler.mk.injEq]
  repeat' apply And.intro
  all_goals try trivial

set_option maxRecDepth 4000 in
theorem state2_step (m fuel : Nat) :
    Compiler.compile_loop (fuel + 1) (state2 (m + 1)) =
      Compiler.compile_loop fuel (stateK (m + 1) 1) := by
  rw [Compiler.compile_loop, state2_scan m]
  show (Compiler.compile_loop fuel _) = _
  rw [state2_hp (m + 1), state2_next (m + 1)]
  rfl

theorem stateK_iter (n k j fuel : Nat) (hk1 : 1 ≤ k) (hkj : k + j = n) :
    Compiler.compile_loop (j + fuel) (stateK n k) =
      Compiler.compile_loop fuel (stateK n n) := by
  induction j generalizing k with
  | zero =>
    have : k = n := by omega
    subst this
    rw [Nat.zero_add]
  | succ j ih =>
    have hlt : k < n := by omega
    have h1 : j + 1 + fuel = (j + fuel) + 1 := by omega
    rw [h1, stateK_step n k (j + fuel) hk1 hlt]
    exact ih (k + 1) (by omega) (by omega)

set_option maxRecDepth 4000 in
theorem stateN_scan (n : Nat) :
    (stateK n n).scan_op = .ok (.End, '\x00', stateK n n) := by
  unfold Compiler.scan_op
  have hlen : (stateK n n).pattern.length = 2 + n := by
    show ('a' :: '|' :: List.replicate n '𝄞').length = 2 + n
    simp
    omega
  have hpos : (stateK n n).pos = 2 + n := rfl
  rw [hlen, hpos]
  rw [if_pos (by omega)]

theorem stateN_hp1 (n : Nat) :
    (stateK n n).handle_precedence (precedences (stateK n n).syn .End) =
      Compiler.patch_jumps 1 (stFinPre n) := rfl

set_option maxRecDepth 4000 in
theorem stateN_hp2 (n : Nat) :
    Compiler.patch_jumps 1 (stFinPre n) = stFin n := by
  rw [Compiler.patch_jumps]
  rw [if_pos (show 0 < (stFinPre n).num_jumps ∧
      (stFinPre n).current_level_start ≤
        (stFinPre n).future_jumps.getD ((stFinPre n).num_jumps - 1) 0 from by
    constructor
    · show 0 < 1
      omega
    · show (0 : Nat) ≤ 7
      omega)]
  rw [Compiler.patch_jumps]
  rw [show (stFinPre n).future_jumps.getD ((stFinPre n).num_jumps - 1) 0 = 7
    from rfl]
  rw [show (stFinPre n).buffer.length = 9 + 6 * n from by
    show (jumpPrefix ++ exBytesRep n).length = 9 + 6 * n
    simp [jumpPrefix, exBytesRep_length]
    omega]
  unfold Compiler.put_addr
  simp only []
  have hd : ((9 + 6 * n : Nat) : Int) - ((7 : Nat) : Int) - 2 =
      ((6 * n : Nat) : Int) := by push_cast; ring
  rw [hd]
  unfold stFin stFinPre
  simp only [Compiler.mk.injEq]
  repeat' apply And.intro
  all_goals try trivial

set_option maxRecDepth 4000 in
theorem stateN_end (n fuel : Nat) :
    Compiler.compile_loop (fuel + 1) (stateK n n) = .ok (stFin n) := by
  rw [Compiler.compile_loop, stateN_scan n]
  simp only []
  rw [stateN_hp1 n, stateN_hp2 n]
  rw [show (stFin n).process_operation .End '\x00' = .ok (stFin n) from rfl]
  simp only []
  rw [if_pos trivial]
  rfl

set_option maxRecDepth 4000 in
theorem compile_bigPat (m : Nat) :
    compile (bigPat (m + 1)) SyntaxFlags.AWK = .ok (truncRegex (m + 1)) := by
  unfold compile
  simp only []
  rw [show (bigPat (m + 1)).data.length + 2 = (m + 4) + 1 from by
    show ('a' :: '|' :: List.replicate (m + 1) '𝄞').length + 2 = m + 5
    simp]
  rw [show (Compiler.new (bigPat (m + 1)) SyntaxFlags.AWK).set_level_start =
    state0 (m + 1) from rfl]
  rw [state0_step1 (m + 1) (m + 4)]
  rw [show (m + 4 : Nat) = (m + 3) + 1 from rfl]
  rw [state1_step (m + 1) (m + 3)]
  rw [show (m + 3 : Nat) = (m + 2) + 1 from rfl]
  rw [state2_step m (m + 2)]
  rw [stateK_iter (m + 1) 1 m 2 (by omega) (by omega)]
  rw [show (2 : Nat) = 1 + 1 from rfl]
  rw [stateN_end (m + 1) 1]
  simp only []
  rfl

/-! ## Claims -/

/-- C10: for every `Captures` value and every index `i ≥ 100`,
`Captures.get i` returns `None` rather than panicking or reading out of
bounds; `get` only returns `Some (start, end)` when `i < 100` and both
positions of group `i` are set. -/
theorem C10_captures_get_safe (c : Captures) (i : Nat) :
    (RE_NREGS ≤ i → c.get i = none) ∧
    (∀ s e, c.get i = some (s, e) →
      i < RE_NREGS ∧ c.groups.getD i (none, none) = (some s, some e)) := by
  constructor
  · intro h
    unfold Captures.get
    rw [if_neg (by omega)]
  · intro s e h
    unfold Captures.get at h
    by_cases hi : i < RE_NREGS
    · refine ⟨hi, ?_⟩
      rw [if_pos hi] at h
      revert h
      match hg : c.groups.getD i (none, none) with
      | (some a, some b) => intro h; simp at h; simp [h]
      | (none, _) => intro h; simp at h
      | (some _, none) => intro h; simp at h
    · rw [if_neg hi] at h
      simp at h

/-- Witness for C10 at a concrete `Captures` value and index. -/
theorem C10_captures_get_safe_witness :
    Captures.get ⟨[(some 2, some 5)]⟩ 100 = none :=
  (C10_captures_get_safe ⟨[(some 2, some 5)]⟩ 100).1 (by decide)

/-- C8: with default (EMACS) syntax and default execution limits,
`compile("ab*c").find("ac")` returns `Some((0, 2))` and
`compile("ab*c").find("abbbc")` returns `Some((0, 5))` (code-point
indices).  The `MRes.res` constructor records that the fuelled run of the
model finished — fuel is a bound on loop iterations, not semantics. -/
theorem C8_star_seed_scenarios :
    ((compile "ab*c" SyntaxFlags.default).toOption.map fun re =>
      (re.find "ac" 100, re.find "abbbc" 100)) =
    some (.res (some (0, 2)), .res (some (0, 5))) := by decide

/-- C1 (code bug): the claim says `MatchMemory r` with register `r` set
consumes the code-points captured in register `r` and continues on
equality; the code instead backtracks unconditionally (an admitted stub).
On pattern `\(a\)\1` (EMACS) and text `"aa"`, register 1 captures `"a"`
and the text at the cursor equals it, so the claim implies a match; the
code reports no match.  The compiled buffer
`[StartMemory 1, Exact 'a', EndMemory 1, MatchMemory 1, End]` shows the
`MatchMemory 1` instruction is reached with register 1 set. -/
theorem C1_matchmemory_stubbed :
    ((compile "\\(a\\)\\1" SyntaxFlags.EMACS).toOption.map fun re =>
      (re.buffer, re.is_match "aa" 100)) =
    some ([6, 1, 4, 1, 97, 7, 1, 8, 1, 0], .res false) := by decide

set_option maxRecDepth 10000 in
/-- C4 counterexample: for the AWK pattern `(a)|(b)` on text `"b"`, the
match populates group 2 (as `(0,1)`) while group 1 stays unset, and
`Captures.len` returns 1 — not 3 as the claim requires for a capture set
whose group 2 is set while group 1 is not. -/
theorem C4_counterexample :
    ((compile "(a)|(b)" SyntaxFlags.AWK).toOption.map fun re =>
      match re.captures "b" 100 with
      | .res (some c) => some (c.len, c.get 1, c.get 2)
      | _ => none) = some (some (1, none, some (0, 1))) ∧
    (1 : Nat) ≠ 3 := ⟨by decide, by decide⟩

/-- C4 amended: `Captures.len()` returns the index of the first register
whose start and end are both unset (or 100 when every register is
populated), which is one past the highest populated register only when the
populated registers form a prefix. -/
theorem C4_amended_len_first_gap (c : Captures)
    (h : c.groups.length = RE_NREGS) :
    c.len ≤ RE_NREGS ∧
    (∀ j g, j < c.len → c.groups.get? j = some g →
      ¬ (g.1 = none ∧ g.2 = none)) ∧
    (c.len < RE_NREGS → ∃ g, c.groups.get? c.len = some g ∧
      g.1 = none ∧ g.2 = none) := by
  have hf := findIdx_first_characterization
    (fun g => g.1.isNone && g.2.isNone) c.groups
  unfold Captures.len
  refine ⟨h ▸ hf.1, ?_, ?_⟩
  · intro j g hj hg hcon
    have := hf.2.1 j g hj hg
    rw [hcon.1, hcon.2] at this
    simp at this
  · intro hlt
    have hlen : c.groups.findIdx (fun g => g.1.isNone && g.2.isNone) <
        c.groups.length := by omega
    have hget := List.get?_eq_get hlen
    refine ⟨c.groups.get ⟨_, hlen⟩, hget, ?_⟩
    have := hf.2.2 _ hget
    simp at this
    exact ⟨this.1, this.2⟩

/-- Witness for the amended C4 at a concrete `Captures` value. -/
theorem C4_amended_len_first_gap_witness :
    (Captures.mk (List.replicate 100 ((none : Option Nat),
      (none : Option Nat)))).len ≤ RE_NREGS ∧
    (∀ j g, j < (Captures.mk (List.replicate 100 ((none : Option Nat),
        (none : Option Nat)))).len →
      (List.replicate 100 ((none : Option Nat),
        (none : Option Nat))).get? j = some g →
      ¬ (g.1 = none ∧ g.2 = none)) ∧
    ((Captures.mk (List.replicate 100 ((none : Option Nat),
        (none : Option Nat)))).len < RE_NREGS →
      ∃ g, (List.replicate 100 ((none : Option Nat),
        (none : Option Nat))).get? (Captures.mk (List.replicate 100
        ((none : Option Nat), (none : Option Nat)))).len = some g ∧
        g.1 = none ∧ g.2 = none) :=
  C4_amended_len_first_gap ⟨List.replicate 100 (none, none)⟩ (by simp [RE_NREGS])

/-- C7: a closing parenthesis with no matching open parenthesis never
fails compilation: the `ClosePar` arm at paren depth 0 appends exactly the
instruction `Exact ')'` (bytes `[4, 1, 41]`).  End to end, `a)b` under
default syntax compiles to `Exact 'a'; Exact ')'; Exact 'b'; End` and
matches the literal text `"a)b"` at `(0, 3)`. -/
theorem C7_unmatched_close_paren :
    (∀ (st : Compiler) (ch : Char), st.paren_depth = 0 →
      ∃ st', st.process_operation .ClosePar ch = .ok st' ∧
        st'.buffer = st.buffer ++ [4, 1, 41]) ∧
    ((compile "a)b" SyntaxFlags.default).toOption.map fun re =>
      (re.buffer, re.find "a)b" 100)) =
      some ([4, 1, 97, 4, 1, 41, 4, 1, 98, 0], .res (some (0, 3))) := by
  constructor
  · intro st ch h
    refine ⟨st.set_level_start.store_opcode_and_char .Exact ')', ?_, ?_⟩
    · show (if 0 < st.paren_depth then _ else _) = _
      rw [if_neg (by omega)]
    · simp [Compiler.set_level_start, Compiler.store_opcode_and_char,
        Compiler.store_opcode, Compiler.store_char, Compiler.store,
        CompiledOp.to_byte, utf8Encode]
  · decide

/-- Witness for the universally quantified part of C7, at the compiler's
initial state for the pattern `)`. -/
theorem C7_unmatched_close_paren_witness :
    ∃ st', (Compiler.new ")" SyntaxFlags.default).process_operation
        .ClosePar ')' = .ok st' ∧
      st'.buffer = (Compiler.new ")" SyntaxFlags.default).buffer ++
        [4, 1, 41] :=
  C7_unmatched_close_paren.1 (Compiler.new ")" SyntaxFlags.default) ')' rfl

/-- The forward search loop never produces an error value: every VM error
at a position is treated as a non-match. -/
theorem search_fwd_never_error (regex : Regex) (text : String)
    (limits : ExecLimits) (text_len fuel : Nat) (positions : List Nat)
    (e : RegexError) :
    search_fwd regex text limits text_len fuel positions ≠
      .res (.error e) := by
  induction positions with
  | nil => intro h; simp [search_fwd] at h
  | cons pos rest ih =>
    intro h
    unfold search_fwd at h
    split at h
    · simp at h
    · split at h <;> simp_all

/-- The backward search loop never produces an error value. -/
theorem search_bwd_never_error (regex : Regex) (text : String)
    (limits : ExecLimits) (text_len fuel : Nat) (positions : List Nat)
    (e : RegexError) :
    search_bwd regex text limits text_len fuel positions ≠
      .res (.error e) := by
  induction positions with
  | nil => intro h; simp [search_bwd] at h
  | cons pos rest ih =>
    intro h
    unfold search_bwd at h
    split at h
    · exact ih h
    · split at h <;> simp_all

/-- C2 counterexample: pattern `aa` on text `"aa"` with
`max_ticks = Some 2`.  The VM execution at candidate position 0 fails with
`Timeout`, yet `search` over the whole text returns `Ok(-1)` — a plain
non-match — and not the `Timeout` error the claim requires it to return. -/
theorem C2_counterexample :
    ((compile "aa" SyntaxFlags.default).toOption.map fun re =>
      (execute_result re "aa" 0 ⟨some 2, 100000⟩ 10,
       search re "aa" 0 2 ⟨some 2, 100000⟩ 10)) =
      some (.res (.error .Timeout), .res (.ok (-1))) ∧
    (MRes.res (Except.ok (-1)) : MRes (Except RegexError Int)) ≠
      .res (.error .Timeout) := ⟨by decide, by decide⟩

/-- C2 amended: the search driver treats every single-position VM failure
— `ExecutionError` and `Timeout` alike — as a non-match: a failed position
is skipped and the loop moves to the next position, and `search` never
returns an error to its caller. -/
theorem C2_amended_search_swallows_errors :
    (∀ (regex : Regex) (text : String) (start : Nat) (range : Int)
      (limits : ExecLimits) (fuel : Nat) (e : RegexError),
      search regex text start range limits fuel ≠ .res (.error e)) ∧
    (∀ (regex : Regex) (text : String) (limits : ExecLimits)
      (text_len fuel pos : Nat) (rest : List Nat)
      (r : Except RegexError (Option Nat)),
      pos ≤ text_len →
      execute_result regex text pos limits fuel = .res r →
      (∀ q : Nat, r ≠ .ok (some q)) →
      search_fwd regex text limits text_len fuel (pos :: rest) =
        search_fwd regex text limits text_len fuel rest) := by
  constructor
  · intro regex text start range limits fuel e h
    unfold search at h
    split at h
    · exact search_fwd_never_error _ _ _ _ _ _ _ h
    · exact search_bwd_never_error _ _ _ _ _ _ _ h
  · intro regex text limits text_len fuel pos rest r hle hres hnomatch
    unfold execute_result at hres
    conv_lhs => rw [search_fwd]
    rw [if_neg (by omega)]
    match hE : (MatchState.new regex text limits).execute pos fuel with
    | .fuelOut => rw [hE] at hres; exact absurd hres (by simp)
    | .panicked => rw [hE] at hres; exact absurd hres (by simp)
    | .res (r', s') =>
      rw [hE] at hres
      simp at hres
      subst hres
      match r', hnomatch with
      | .ok none, _ => rfl
      | .ok (some q), hn => exact absurd rfl (hn q)
      | .error e, _ => rfl

/-- Witness for the amended C2, instantiating both conjuncts at concrete
inputs. -/
theorem C2_amended_search_swallows_errors_witness :
    (search ⟨[4, 1, 97, 0], none, SyntaxFlags.EMACS⟩ "b" 0 1
        ExecLimits.default 10 ≠ .res (.error .Timeout)) ∧
    (search_fwd ⟨[4, 1, 97, 0], none, SyntaxFlags.EMACS⟩ "b"
        ExecLimits.default 1 10 [0, 1] =
      search_fwd ⟨[4, 1, 97, 0], none, SyntaxFlags.EMACS⟩ "b"
        ExecLimits.default 1 10 [1]) :=
  ⟨C2_amended_search_swallows_errors.1 _ "b" 0 1 ExecLimits.default 10
      .Timeout,
    C2_amended_search_swallows_errors.2 _ "b" ExecLimits.default 1 10 0 [1]
      (.error .ExecutionError) (by omega) (by decide)
      (fun q h => by simp at h)⟩

/-- C5 counterexample: on the empty text at position 0, the VM's
`WordBound` instruction matches (the code treats the very start or very
end of the text as a boundary even when the adjacent character is
missing), while the claimed rule — "at position 0 iff a next character
exists and is a word character" — yields false.  The claimed equivalence
is therefore false at this input. -/
theorem C5_counterexample :
    execute_result wb_regex "" 0 ExecLimits.default 2 =
      .res (.ok (some 0)) ∧
    word_bound_claimed "".data 0 = false ∧
    ¬ (execute_result wb_regex "" 0 ExecLimits.default 2 =
        .res (.ok (some 0)) ↔ word_bound_claimed "".data 0 = true) := by
  refine ⟨by decide, by decide, ?_⟩
  intro h
  exact absurd (h.mp (by decide)) (by decide)

/-- C5 amended: `\b` and `\B` compile to single `WordBound` /
`NotWordBound` instructions, and for every text and every position
`p ≤ length`: `WordBound` matches at position 0 of a non-empty text iff
the next character is a word character, at the end of a non-empty text iff
the previous character is a word character, on the empty text always, and
elsewhere iff exactly one of the neighbours is a word character;
`NotWordBound` never matches at position 0 or at the end, and elsewhere
matches iff the neighbours agree on word-ness. -/
theorem C5_amended_word_boundary :
    compile "\\b" SyntaxFlags.default = .ok wb_regex ∧
    compile "\\B" SyntaxFlags.default = .ok nwb_regex ∧
    ∀ (text : String) (p : Nat), p ≤ text.data.length →
      (execute_result wb_regex text p ExecLimits.default 2 =
          .res (.ok (some p)) ↔ word_bound_amended text.data p = true) ∧
      (execute_result nwb_regex text p ExecLimits.default 2 =
          .res (.ok (some p)) ↔ not_word_bound_spec text.data p = true) := by
  refine ⟨by decide, by decide, ?_⟩
  intro text p hp
  exact ⟨word_bound_characterization text.data p hp,
    not_word_bound_characterization text.data p hp⟩

/-- Witness for the amended C5 at text `"a b"` and position 1 (a word
boundary after `'a'`, hence `\b` matches and `\B` does not). -/
theorem C5_amended_word_boundary_witness :
    (execute_result wb_regex "a b" 1 ExecLimits.default 2 =
        .res (.ok (some 1)) ↔ word_bound_amended "a b".data 1 = true) ∧
    (execute_result nwb_regex "a b" 1 ExecLimits.default 2 =
        .res (.ok (some 1)) ↔ not_word_bound_spec "a b".data 1 = true) :=
  C5_amended_word_boundary.2.2 "a b" 1 (by decide)

/-- C3: with `max_ticks = Some k`, a single VM execution returns within
`k + 1` loop iterations (the model's fuel of `k + 1` can never run out),
of which at most `k` dispatch an instruction: every iteration that
continues increments the tick counter by exactly one, and once the
counter would reach `k` the iteration terminates with `Timeout` before
fetching an opcode. -/
theorem C3_tick_bounded_execution (regex : Regex) (text : String)
    (start_pos : Nat) (limits : ExecLimits) (k : Nat)
    (hmt : limits.max_ticks = some k) :
    ((MatchState.new regex text limits).execute start_pos (k + 1) ≠
      .fuelOut) ∧
    (∀ s s' : MatchState, MatchState.step s = .cont s' →
      s'.ticks = s.ticks + 1) ∧
    (∀ s : MatchState, s.limits.max_ticks = some k → k ≤ s.ticks + 1 →
      MatchState.step s = .done (.error .Timeout) s) := by
  refine ⟨?_, fun s s' h => (step_cont s s' h).1,
    fun s h1 h2 => step_timeout s k h1 h2⟩
  unfold MatchState.execute
  apply run_bounded (k + 1) _ k
  · simpa [MatchState.new] using hmt
  · simp [MatchState.new]
  · omega

/-- Witness for C3: a concrete execution with `max_ticks = Some 3`
finishes within 4 loop iterations. -/
theorem C3_tick_bounded_execution_witness :
    (MatchState.new ⟨[0], none, SyntaxFlags.EMACS⟩ "" ⟨some 3, 10⟩).execute
      0 (3 + 1) ≠ .fuelOut :=
  (C3_tick_bounded_execution ⟨[0], none, SyntaxFlags.EMACS⟩ "" 0
    ⟨some 3, 10⟩ 3 rfl).1

/-- C9: the buffer invariant fails for large patterns. For every `n` with
`5462 ≤ n ≤ 10921`, the pattern `a|𝄞𝄞...𝄞` (`n` copies) compiles
successfully and its buffer does end in `End`, but the alternation's
`Jump` at offset 6 carries a displacement that was silently truncated to
16 bits by `put_addr`: decoded as the VM decodes it (signed 16-bit
little-endian), the jump target `6 + 3 + disp` is negative, i.e. not an
opcode boundary inside the buffer. -/
theorem C9_jump_displacement_truncation (n : Nat)
    (h1 : 5462 ≤ n) (h2 : n ≤ 10921) :
    ∃ re : Regex, compile (bigPat n) SyntaxFlags.AWK = .ok re ∧
      re.buffer.getLast? = some CompiledOp.End.to_byte ∧
      re.buffer.getD 6 0 = CompiledOp.Jump.to_byte ∧
      (6 : Int) + 3 +
        i16_of_bytes (re.buffer.getD 7 0) (re.buffer.getD 8 0) < 0 := by
  obtain ⟨m, rfl⟩ : ∃ m, n = m + 1 := ⟨n - 1, by omega⟩
  refine ⟨truncRegex (m + 1), compile_bigPat m, ?_, rfl, ?_⟩
  · show ([11, 6, 0, 4, 1, 97, 9, 6 * (m + 1) % 256,
      6 * (m + 1) / 256 % 256] ++ exBytesRep (m + 1) ++ [0]).getLast? =
      some CompiledOp.End.to_byte
    rw [List.getLast?_concat]
    rfl
  · show (6 : Int) + 3 + i16_of_bytes (6 * (m + 1) % 256)
      (6 * (m + 1) / 256 % 256) < 0
    unfold i16_of_bytes
    simp only []
    have hv : 6 * (m + 1) % 256 % 256 +
        256 * (6 * (m + 1) / 256 % 256 % 256) = 6 * (m + 1) := by
      have e1 : 6 * (m + 1) % 256 % 256 = 6 * (m + 1) % 256 := by omega
      have e2 : 6 * (m + 1) / 256 % 256 % 256 = 6 * (m + 1) / 256 := by omega
      rw [e1, e2]
      omega
    rw [hv]
    rw [if_neg (by omega)]
    omega

/-- Witness for C9 at the smallest pattern in the family, `n = 5462`
(compiled size `10 + 6 * 5462 = 32782` bytes, displacement `32772`). -/
theorem C9_jump_displacement_truncation_witness :
    5462 ≤ 5462 ∧ 5462 ≤ 10921 ∧
      (∃ re : Regex, compile (bigPat 5462) SyntaxFlags.AWK = .ok re ∧
        re.buffer.getLast? = some CompiledOp.End.to_byte ∧
        re.buffer.getD 6 0 = CompiledOp.Jump.to_byte ∧
        (6 : Int) + 3 +
          i16_of_bytes (re.buffer.getD 7 0) (re.buffer.getD 8 0) < 0) :=
  ⟨by omega, by omega,
    C9_jump_displacement_truncation 5462 (by omega) (by omega)⟩

set_option maxRecDepth 10000 in
/-- C6: the alternation/union claim fails when a branch contains an
unmatched `)`. In AWK mode, `a`, `b)` and `a|b)` all compile and
`a` matches the text `"a"`, so the claimed union property requires
`a|b)` to match `"a"` as well; but the compiled `a|b)` rejects `"a"`:
the unmatched `)` is processed at `ClosePar` precedence, so
`handle_precedence` patches the pending alternation jump to point before
the literal `)`, which then becomes a mandatory suffix of both branches
(the code's own comment says it is treated as a normal character, but a
normal character has precedence 4 and would leave the pending jump
alone). -/
theorem C6_union_broken_by_unmatched_paren :
    ((compile "a|b)" SyntaxFlags.AWK).toOption.map fun re =>
      re.is_match "a" 100) = some (.res false) ∧
    ((compile "a" SyntaxFlags.AWK).toOption.map fun re =>
      re.is_match "a" 100) = some (.res true) ∧
    ((compile "b)" SyntaxFlags.AWK).toOption.map fun re =>
      re.is_match "a" 100) = some (.res false) :=
  ⟨by decide, by decide, by decide⟩

end Regexpr
